import Mathlib

/-!
Verification of the ONI save-file parser (oni_save_parser package).

This file shallowly embeds the byte-level decoding pipeline of the
repository into Lean:

* byte primitives mirroring Python `struct.unpack_from` little-endian reads
  (`src/oni_ai_agents/services/oni_save_parser/binary_reader.py` and the
  inline `struct` calls),
* IEEE-754 binary32/binary64 bit decoding as exact rationals (finite
  values; NaN and infinities map to `none`, matching `math.isfinite`),
* the KSAV group walk (`ksav_index.py`), the duplicant decoder
  (`duplicant_decoder.py`), the compressed-block scanner and metadata
  builder (`compressed_blocks.py`, `metadata_builder.py`), the header and
  parse pipeline (`save_parser.py`) and the contract extractor
  (`data_extractor.py`).

External libraries are modelled as oracles passed explicitly:
`zlib.decompress` becomes an `inflate` parameter (suffix bytes to optional
decompressed bytes) and `bytes.decode("utf-8") + json.loads` of the header
becomes a `jsonO` parameter.  Everything else is translated directly from
the Python source.
-/

namespace OniSave

/-- Bytes are naturals; reads reduce mod 256 so the model is total. -/
abbrev ByteSeq := List Nat

deriving instance DecidableEq for Except

/-- Byte at index, reduced mod 256 (a Python `bytes` element is in 0..255). -/
def byteAt? (bs : ByteSeq) (i : Nat) : Option Nat :=
  (bs.get? i).map (· % 256)

/-- Slice `bs[i : i+n]` when fully in range, as Python memoryview slicing
followed by a length check would give; `none` mirrors an out-of-range
`struct` read raising. -/
def slice? (bs : ByteSeq) (i n : Nat) : Option ByteSeq :=
  if i + n ≤ bs.length then some (((bs.drop i).take n).map (· % 256)) else none

/-- Little-endian unsigned read of `n` bytes starting at `i`
(`struct.unpack_from` with format `<I`, `<Q`, ...). -/
def readLE? (bs : ByteSeq) (i n : Nat) : Option Nat :=
  (slice? bs i n).map (fun l => l.foldr (fun b acc => b + 256 * acc) 0)

/-- `struct.unpack_from("<I", mv, i)`. -/
def readU32? (bs : ByteSeq) (i : Nat) : Option Nat := readLE? bs i 4

/-- Two's-complement reinterpretation of an unsigned `w`-bit value. -/
def toSigned (w : Nat) (u : Nat) : Int :=
  if u < 2 ^ (w - 1) then (u : Int) else (u : Int) - (2 ^ w : Nat)

/-- `struct.unpack_from("<i", mv, i)`: signed 32-bit little-endian. -/
def readI32? (bs : ByteSeq) (i : Nat) : Option Int :=
  (readU32? bs i).map (toSigned 32)

/-- `struct.unpack_from("<q", mv, i)`: signed 64-bit little-endian. -/
def readI64? (bs : ByteSeq) (i : Nat) : Option Int :=
  (readLE? bs i 8).map (toSigned 64)

/-- Decode an IEEE-754 binary32 bit pattern to an exact rational.
`none` means NaN or an infinity (exactly the values rejected by
`math.isfinite`); signed zeros and subnormals decode exactly. -/
def decodeF32 (bits : Nat) : Option ℚ :=
  let u : Nat := bits % 2 ^ 32
  let sign : Nat := u / 2 ^ 31
  let expo : Nat := (u / 2 ^ 23) % 2 ^ 8
  let frac : Nat := u % 2 ^ 23
  if expo = 255 then none
  else
    let mag : ℚ :=
      if expo = 0 then (frac : ℚ) * (2 : ℚ) ^ (-(149 : ℤ))
      else ((2 ^ 23 + frac : ℕ) : ℚ) * (2 : ℚ) ^ ((expo : ℤ) - 150)
    some (if sign = 1 then -mag else mag)

/-- Decode an IEEE-754 binary64 bit pattern to an exact rational
(`none` for NaN/infinities). -/
def decodeF64 (bits : Nat) : Option ℚ :=
  let u : Nat := bits % 2 ^ 64
  let sign : Nat := u / 2 ^ 63
  let expo : Nat := (u / 2 ^ 52) % 2 ^ 11
  let frac : Nat := u % 2 ^ 52
  if expo = 2047 then none
  else
    let mag : ℚ :=
      if expo = 0 then (frac : ℚ) * (2 : ℚ) ^ (-(1074 : ℤ))
      else ((2 ^ 52 + frac : ℕ) : ℚ) * (2 : ℚ) ^ ((expo : ℤ) - 1075)
    some (if sign = 1 then -mag else mag)

/-- `struct.unpack_from("<f", mv, i)`: outer `none` = not enough bytes
(the Python call raises), inner `none` = a non-finite float. -/
def readF32? (bs : ByteSeq) (i : Nat) : Option (Option ℚ) :=
  (readU32? bs i).map decodeF32

/-- `struct.unpack_from("<d", mv, i)`. -/
def readF64? (bs : ByteSeq) (i : Nat) : Option (Option ℚ) :=
  (readLE? bs i 8).map decodeF64

/-- Python `round` on a nonnegative rational: round half to even
(used by `int(round(fv))` in the aptitude decoder). -/
def roundHalfEven (q : ℚ) : Int :=
  let f := ⌊q⌋
  let frac := q - f
  if frac < 1 / 2 then f
  else if frac > 1 / 2 then f + 1
  else if f % 2 = 0 then f else f + 1

/-- UTF-8 decoding with `errors="ignore"`: valid sequences decode, any
byte that cannot start a valid sequence at its position is dropped.
Skipping invalid bytes one at a time yields the same output as
CPython's maximal-subpart error ranges, because every continuation byte
is itself an invalid start byte and is dropped in turn. -/
def utf8Cont (x : Nat) : Prop := 0x80 ≤ x ∧ x ≤ 0xBF

instance : DecidablePred utf8Cont := fun _ => instDecidableAnd

/-- Is a valid 3-byte UTF-8 sequence headed here (excluding overlongs and
surrogates, as Python does)? -/
def utf8Ok3 (b b1 b2 : Nat) : Prop :=
  (b = 0xE0 ∧ 0xA0 ≤ b1 ∧ b1 ≤ 0xBF ∧ utf8Cont b2) ∨
  (0xE1 ≤ b ∧ b ≤ 0xEC ∧ utf8Cont b1 ∧ utf8Cont b2) ∨
  (b = 0xED ∧ 0x80 ≤ b1 ∧ b1 ≤ 0x9F ∧ utf8Cont b2) ∨
  (0xEE ≤ b ∧ b ≤ 0xEF ∧ utf8Cont b1 ∧ utf8Cont b2)

instance (b b1 b2 : Nat) : Decidable (utf8Ok3 b b1 b2) := instDecidableOr

/-- Is a valid 4-byte UTF-8 sequence headed here (code point ≤ U+10FFFF)? -/
def utf8Ok4 (b b1 b2 b3 : Nat) : Prop :=
  (b = 0xF0 ∧ 0x90 ≤ b1 ∧ b1 ≤ 0xBF ∧ utf8Cont b2 ∧ utf8Cont b3) ∨
  (0xF1 ≤ b ∧ b ≤ 0xF3 ∧ utf8Cont b1 ∧ utf8Cont b2 ∧ utf8Cont b3) ∨
  (b = 0xF4 ∧ 0x80 ≤ b1 ∧ b1 ≤ 0x8F ∧ utf8Cont b2 ∧ utf8Cont b3)

instance (b b1 b2 b3 : Nat) : Decidable (utf8Ok4 b b1 b2 b3) := instDecidableOr

/-- Try to decode one UTF-8 sequence whose first byte is `b` and whose
remaining bytes start `rest`; returns the character and how many bytes of
`rest` it consumed, `none` when `b` starts no valid sequence here. -/
def utf8Step (b : Nat) (rest : List Nat) : Option (Char × Nat) :=
  if b < 0x80 then some (Char.ofNat b, 0)
  else
    match rest with
    | [] => none
    | b1 :: rest1 =>
      if 0xC2 ≤ b ∧ b ≤ 0xDF ∧ utf8Cont b1 then
        some (Char.ofNat ((b - 0xC0) * 64 + (b1 - 0x80)), 1)
      else
        match rest1 with
        | [] => none
        | b2 :: rest2 =>
          if utf8Ok3 b b1 b2 then
            some (Char.ofNat ((b - 0xE0) * 4096 + (b1 - 0x80) * 64 + (b2 - 0x80)), 2)
          else
            match rest2 with
            | [] => none
            | b3 :: _ =>
              if utf8Ok4 b b1 b2 b3 then
                some (Char.ofNat ((b - 0xF0) * 262144 + (b1 - 0x80) * 4096 +
                    (b2 - 0x80) * 64 + (b3 - 0x80)), 3)
              else none

/-- Fuel-driven loop of `utf8Ignore`; every step consumes at least one
byte, so fuel equal to the list length never runs out. -/
def utf8IgnoreGo : Nat → ByteSeq → List Char
  | 0, _ => []
  | _, [] => []
  | fuel + 1, b :: rest =>
    match utf8Step b rest with
    | some (c, k) => c :: utf8IgnoreGo fuel (rest.drop k)
    | none => utf8IgnoreGo fuel rest

/-- UTF-8 decoding with `errors="ignore"`: valid sequences decode, any
byte that cannot start a valid sequence at its position is dropped.
Skipping invalid bytes one at a time yields the same output as
CPython's maximal-subpart error ranges, because every continuation byte
is itself an invalid start byte and is dropped in turn.  Callers always
pass byte values < 256 (they come from `slice?`). -/
def utf8Ignore (l : ByteSeq) : List Char := utf8IgnoreGo l.length l

/-- `bytes(...).decode("utf-8", errors="ignore")`. -/
def decodeUtf8Ignore (bs : ByteSeq) : String :=
  String.mk (utf8Ignore bs)

/-- Substring test on strings (Python `needle in hay`). -/
def strContains (hay needle : String) : Bool :=
  (List.range (hay.length + 1)).any
    (fun i => needle.data.isPrefixOf (hay.data.drop i))

/-- Python `s.startswith(p)`. -/
def pyStartsWith (s p : String) : Bool := p.data.isPrefixOf s.data

/-- ASCII lowercase of one character (the decoder only ever lowercases
ASCII tokens; Unicode lowering beyond ASCII is not needed by any claim). -/
def asciiLower (c : Char) : Char :=
  if 65 ≤ c.toNat ∧ c.toNat ≤ 90 then Char.ofNat (c.toNat + 32) else c

/-- ASCII uppercase of one character. -/
def asciiUpper (c : Char) : Char :=
  if 97 ≤ c.toNat ∧ c.toNat ≤ 122 then Char.ofNat (c.toNat - 32) else c

/-- Python `s.lower()` (ASCII range). -/
def pyLower (s : String) : String := String.mk (s.data.map asciiLower)

/-- Python `s.capitalize()` (ASCII range): first char upper, rest lower. -/
def pyCapitalize (s : String) : String :=
  match s.data with
  | [] => ""
  | c :: cs => String.mk (asciiUpper c :: cs.map asciiLower)

/-- Search for the first occurrence of `needle` in `hay` starting at
index `from0` (Python `bytes.find`), returning the absolute index. -/
def findSubFrom (hay needle : ByteSeq) (from0 : Nat) : Option Int :=
  let limit := hay.length + 1
  ((List.range limit).drop from0).findSome?
    (fun i => if needle.isPrefixOf (hay.drop i) then some (i : Int) else none)

/-- Python `bytes.find` (returns -1 when absent). -/
def pyFind (hay needle : ByteSeq) : Int :=
  match findSubFrom hay needle 0 with
  | some i => i
  | none => -1

/-- All (possibly overlapping) occurrence offsets of `needle` in `hay`,
ascending — mirrors the `while True: pos = search.find(sig, idx); idx = pos + 1`
loops of the block scanners. -/
def findAll (hay needle : ByteSeq) : List Nat :=
  (List.range (hay.length + 1)).filter (fun i => needle.isPrefixOf (hay.drop i))

end OniSave

namespace OniSave

/-! ### Klei string and scan helpers (`duplicant_decoder.py`) -/

/-- `DuplicantDecoder._read_klei_string`: read one length-prefixed string at
`off` bounded by `endp`; returns the decoded string (or `none`) and the new
offset, exactly as the Python helper returns `(s, off)`.
Call sites always have `endp ≤ bs.length`, so the inner reads succeed. -/
def readKleiString (bs : ByteSeq) (off endp : Nat) : Option String × Nat :=
  if off + 4 > endp then (none, off)
  else
    match readI32? bs off with
    | none => (none, off)
    | some l =>
      let off1 := off + 4
      if l < 0 ∨ (off1 : Int) + l > (endp : Int) then (none, off1)
      else
        (some (decodeUtf8Ignore ((slice? bs off1 l.toNat).getD [])), off1 + l.toNat)

/-- Loop body of `DuplicantDecoder._scan_klei_strings`; `fuel` dominates the
number of iterations (each iteration strictly increases `p`, and the loop
requires `p + 4 ≤ endp`, so `endp + 1` iterations never run out). -/
def scanKleiStringsGo (bs : ByteSeq) (endp maxS : Nat) :
    Nat → Nat → Nat → List String → List String
  | 0, _, _, acc => acc
  | fuel + 1, p, scanned, acc =>
    if p + 4 ≤ endp ∧ scanned < maxS then
      match readI32? bs p with
      | none => scanKleiStringsGo bs endp maxS fuel (p + 1) scanned acc
      | some l =>
        if l < 0 ∨ l > (endp : Int) - (p : Int) - 4 then
          scanKleiStringsGo bs endp maxS fuel (p + 1) scanned acc
        else
          let s := decodeUtf8Ignore ((slice? bs (p + 4) l.toNat).getD [])
          if s ≠ "" then
            scanKleiStringsGo bs endp maxS fuel (p + 4 + l.toNat) (scanned + 1)
              (acc ++ [s])
          else
            scanKleiStringsGo bs endp maxS fuel (p + 4 + l.toNat) scanned acc
    else acc

/-- `DuplicantDecoder._scan_klei_strings(mv, start, end, max_strings)`. -/
def scanKleiStrings (bs : ByteSeq) (start endp maxS : Nat) : List String :=
  scanKleiStringsGo bs endp maxS (endp + 1) start 0 []

/-- ASCII letter, the `[A-Za-z]` class of the Python regexes. -/
def asciiAlpha (c : Char) : Prop :=
  (65 ≤ c.toNat ∧ c.toNat ≤ 90) ∨ (97 ≤ c.toNat ∧ c.toNat ≤ 122)

instance : DecidablePred asciiAlpha := fun _ => instDecidableOr

/-- ASCII digit, the `\d` class (Python regexes on `str` decoded from save
bytes only ever see ASCII digits in these tokens). -/
def asciiDigit (c : Char) : Prop := 48 ≤ c.toNat ∧ c.toNat ≤ 57

instance : DecidablePred asciiDigit := fun _ => instDecidableAnd

/-- `DuplicantDecoder._is_plausible_name`: length 2..40, not a structural
token, no separator characters, and full match of
`[A-Za-z][A-Za-z '\-]*`. -/
def isPlausibleName (s : String) : Bool :=
  if s = "" ∨ s.length < 2 ∨ 40 < s.length then false
  else if s = "Minion" ∨ s = "MinionIdentity" ∨ s = "MALE" ∨ s = "FEMALE" ∨ s = "NB"
    then false
  else if s.data.any (fun c =>
      c = '+' ∨ c = ':' ∨ c = '/' ∨ c = '\\' ∨ c = '.' ∨ c = '[' ∨ c = ']')
    then false
  else
    match s.data with
    | [] => false
    | c :: cs =>
      decide (asciiAlpha c) &&
        cs.all (fun d => decide (asciiAlpha d) ∨ d = ' ' ∨ d = '\'' ∨ d = '-')

/-- Loop body of `_scan_best_float32`: scan every byte offset, keep the
last finite float32 within `[lo, hi]`.  Fuel dominates the iteration
count (`p` advances by one per step and the loop needs `p + 4 ≤ endp`). -/
def scanBestFloat32Go (bs : ByteSeq) (endp : Nat) (lo hi : ℚ) :
    Nat → Nat → Option ℚ → Option ℚ
  | 0, _, best => best
  | fuel + 1, p, best =>
    if p + 4 ≤ endp then
      let best' :=
        match readF32? bs p with
        | some (some v) => if lo ≤ v ∧ v ≤ hi then some v else best
        | _ => best
      scanBestFloat32Go bs endp lo hi fuel (p + 1) best'
    else best

/-- `DuplicantDecoder._scan_best_float32` (the identical
`OniSaveParser._scan_best_float32` is the same function). -/
def scanBestFloat32 (bs : ByteSeq) (start endp : Nat) (lo hi : ℚ) : Option ℚ :=
  scanBestFloat32Go bs endp lo hi (endp + 1) start none

/-! ### Skill-group normalization and fixed tables -/

/-- The alias table of `map_group` in `_parse_minion_resume`. -/
def mapGroupAlias : List (String × String) :=
  [("mining", "Mining"), ("building", "Building"), ("farming", "Farming"),
   ("ranching", "Ranching"), ("researching", "Research"), ("research", "Research"),
   ("cooking", "Cooking"), ("arting", "Art"), ("art", "Art"),
   ("hauling", "Hauling"), ("suits", "Suits"), ("technicals", "Technicals"),
   ("engineering", "Engineering"), ("basekeeping", "Basekeeping"),
   ("astronauting", "Management"), ("medicine", "MedicalAid"),
   ("rocketpiloting", "Management"), ("medicalaid", "MedicalAid")]

/-- The ordered prefix table of `map_group`. -/
def mapGroupPrefixes : List (String × String) :=
  [("build", "Building"), ("resear", "Research"), ("resea", "Research"),
   ("min", "Mining"), ("farm", "Farming"), ("ranch", "Ranching"),
   ("operat", "Operating"), ("engin", "Engineering"), ("medica", "MedicalAid"),
   ("med", "MedicalAid"), ("cook", "Cooking"), ("art", "Art"),
   ("haul", "Hauling"), ("tidy", "Basekeeping"), ("suit", "Suits"),
   ("tech", "Technicals"), ("pyrotech", "Technicals"), ("astron", "Management"),
   ("manage", "Management")]

/-- `map_group(raw)`: alias table on the lowercase token, then the first
matching prefix, else `raw.capitalize()`. -/
def mapGroup (raw : String) : String :=
  let rawL := pyLower raw
  match mapGroupAlias.lookup rawL with
  | some a => a
  | none =>
    match mapGroupPrefixes.findSome?
        (fun pr => if pyStartsWith rawL pr.1 then some pr.2 else none) with
    | some m => m
    | none => pyCapitalize raw

/-- The fixed per-group maximum tier table (`max_level` in the source). -/
def maxLevelTable : List (String × Int) :=
  [("Mining", 3), ("Building", 3), ("Farming", 3), ("Ranching", 2),
   ("Research", 3), ("Cooking", 2), ("Art", 3), ("Hauling", 2),
   ("Suits", 1), ("Technicals", 2), ("Engineering", 1),
   ("Basekeeping", 2), ("Management", 2), ("MedicalAid", 3)]

/-- The `label_map` of `_parse_minion_modifiers`: modifier label to
(vitals key, lower bound, upper bound). -/
def modifiersLabelMap : List (String × String × ℚ × ℚ) :=
  [("Calories", ("calories", 0, 1000000000)),
   ("Health", ("health", 0, 1000)),
   ("Stress", ("stress", 0, 100)),
   ("Stamina", ("stamina", 0, 100)),
   ("Decor", ("decor", -1000, 1000)),
   ("Temperature", ("temperature", 0, 1000)),
   ("Breath", ("breath", 0, 100)),
   ("Bladder", ("bladder", 0, 100)),
   ("ImmuneLevel", ("immune_level", 0, 100)),
   ("Toxicity", ("toxicity", 0, 100)),
   ("RadiationBalance", ("radiation_balance", -10000, 10000)),
   ("QualityOfLife", ("morale", -1000, 1000))]

/-- Python dict read with integer default 0 (`aptitudes.get(g, 0)`). -/
def dictGetInt (l : List (String × Int)) (k : String) : Int :=
  ((l.find? (fun p => p.1 = k)).map (·.2)).getD 0

/-- Python dict assignment `d[k] = v`: overwrite in place, else append
(insertion order preserved). -/
def dictSet {α : Type} (l : List (String × α)) (k : String) (v : α) :
    List (String × α) :=
  if l.any (fun p => p.1 = k) then
    l.map (fun p => if p.1 = k then (k, v) else p)
  else l ++ [(k, v)]

/-- `dict.fromkeys` style order-preserving deduplication. -/
def dedupKeepFirst (seen : List String) : List String → List String
  | [] => []
  | x :: xs =>
    if seen.contains x then dedupKeepFirst seen xs
    else x :: dedupKeepFirst (x :: seen) xs

/-- Stable insertion of `x` into a sorted list. -/
def insertSorted {α : Type} (le : α → α → Bool) (x : α) : List α → List α
  | [] => [x]
  | y :: ys => if le x y then x :: y :: ys else y :: insertSorted le x ys

/-- Stable sort (Python `sorted`; insertion sort, which the kernel can
evaluate). -/
def stableSort {α : Type} (le : α → α → Bool) (l : List α) : List α :=
  l.foldr (insertSorted le) []

/-- Python `sorted` on strings (lexicographic by code point). -/
def pySorted (l : List String) : List String :=
  stableSort (fun a b => decide (a ≤ b)) l

end OniSave

namespace OniSave

/-! ### Known trait/effect identifiers (`known_ids.py`)

`load_known_trait_ids` / `load_known_effect_ids` try to read a research
TypeScript file relative to the project root and fall back to the embedded
constant sets when it is absent (it is not part of the repository), so the
decoder runs with exactly these fallback sets. -/

def knownTraitIds : List String :=
  ["SmallBladder", "Narcolepsy", "Flatulence", "Anemic", "MouthBreather",
   "BingeEater", "StressVomiter", "UglyCrier", "EarlyBird", "NightOwl",
   "FastLearner", "SlowLearner", "NoodleArms", "StrongArm", "IronGut",
   "WeakImmuneSystem", "StrongImmuneSystem", "DeeperDiversLungs", "Snorer",
   "BalloonArtist", "SparkleStreaker", "StickerBomber", "InteriorDecorator",
   "Uncultured", "Allergies", "Hemophobia", "Claustrophobic", "SolitarySleeper",
   "Workaholic", "Aggressive", "Foodie", "SimpleTastes", "Greasemonkey",
   "MoleHands", "Twinkletoes", "SunnyDisposition", "RockCrusher",
   "BedsideManner", "Archaeologist"]

def knownEffectIds : List String :=
  ["UncomfortableSleep", "Sleep", "NarcolepticSleep", "RestfulSleep",
   "AnewHope", "Mourning", "DisturbedSleep", "NewCrewArrival", "UnderWater",
   "FullBladder", "StressfulyEmptyingBladder", "RedAlert", "MentalBreak",
   "CoolingDown", "WarmingUp", "Darkness", "SteppedInContaminatedWater",
   "WellFed", "StaleFood", "SmelledPutridOdour", "Vomiting", "DirtyHands",
   "Unclean", "LightWounds", "ModerateWounds", "SevereWounds", "WasAttacked",
   "SoreBack", "WarmAir", "ColdAir", "Hypothermia", "Hyperthermia",
   "CenterOfAttention"]

/-! ### `_parse_minion_identity` -/

structure IdentityInfo where
  name? : Option String := none
  gender? : Option String := none
  arrival? : Option Int := none
deriving Repr, DecidableEq

/-- The `arrivalTime` branch: try int32, then int64, then float32, then
float64, each accepting the first nonnegative bounded value; an in-range
int32 overwrites any earlier value, the other attempts only fill absence
(exactly the `if "arrival_time" not in identity` chain). -/
def arrivalDecode (bs : ByteSeq) (q2 : Nat) (kvLen : Int) (prev : Option Int) :
    Option Int :=
  let a1 : Option Int :=
    if 4 ≤ kvLen then
      match readI32? bs q2 with
      | some v => if 0 ≤ v ∧ v < 10 ^ 10 then some v else prev
      | none => prev
    else prev
  let a2 : Option Int :=
    if a1 = none ∧ 8 ≤ kvLen then
      match readI64? bs q2 with
      | some v => if 0 ≤ v ∧ v < 10 ^ 12 then some v else none
      | none => none
    else a1
  let a3 : Option ℤ :=
    if a2 = none ∧ 4 ≤ kvLen then
      match readF32? bs q2 with
      | some (some v) => if 0 ≤ v ∧ v < 10 ^ 10 then some ⌊v⌋ else none
      | _ => none
    else a2
  if a3 = none ∧ 8 ≤ kvLen then
    match readF64? bs q2 with
    | some (some v) => if 0 ≤ v ∧ v < 10 ^ 12 then some ⌊v⌋ else none
    | _ => none
  else a3

/-- Read the embedded length-prefixed string of a key/value payload
(`payload = bytes(mv[q2:q2+kv_len]); slen = unpack(payload, 0); ...`),
returning `none` when the payload is too short or the length is invalid
or the decoded string is empty. -/
def embeddedString? (bs : ByteSeq) (q2 : Nat) (kvLen : Int) : Option String :=
  let payload := (slice? bs q2 kvLen.toNat).getD []
  if 4 ≤ payload.length then
    match readI32? payload 0 with
    | some slen =>
      if 0 ≤ slen ∧ slen ≤ (payload.length : Int) - 4 then
        let s := decodeUtf8Ignore ((slice? payload 4 slen.toNat).getD [])
        if s ≠ "" then some s else none
      else none
    | none => none
  else none

structure IdentitySt where
  info : IdentityInfo
  foundName : Bool
deriving Repr, DecidableEq

/-- Key dispatch of the `_parse_minion_identity` key/value loop. -/
def identityKeyStep (bs : ByteSeq) (key : String) (q2 : Nat) (kvLen : Int)
    (st : IdentitySt) : IdentitySt :=
  if key = "name" ∨ key = "nameStringKey" ∨ key = "gender" ∨ key = "genderStringKey" then
    match embeddedString? bs q2 kvLen with
    | some s =>
      if key = "name" ∧ isPlausibleName s then
        { st with info := { st.info with name? := some s }, foundName := true }
      else if key = "gender" ∧ (s = "MALE" ∨ s = "FEMALE" ∨ s = "NB") then
        { st with info := { st.info with gender? := some s } }
      else st
    | none => st
  else if key = "arrivalTime" then
    { st with info :=
        { st.info with arrival? := arrivalDecode bs q2 kvLen st.info.arrival? } }
  else st

/-- The key/value loop of `_parse_minion_identity` (fuel dominates the
iteration count: every step advances `q` by at least one). -/
def parseMinionIdentityGo (bs : ByteSeq) (bend : Nat) :
    Nat → Nat → IdentitySt → IdentitySt
  | 0, _, st => st
  | fuel + 1, q, st =>
    if q < bend then
      match readKleiString bs q bend with
      | (none, _) => parseMinionIdentityGo bs bend fuel (q + 1) st
      | (some key, q2) =>
        if q2 + 4 > bend then st
        else
          match readI32? bs q2 with
          | none => st
          | some kvLen =>
            let q3 := q2 + 4
            if kvLen < 0 ∨ (q3 : Int) + kvLen > (bend : Int) then
              parseMinionIdentityGo bs bend fuel q3 st
            else
              parseMinionIdentityGo bs bend fuel (q3 + kvLen.toNat)
                (identityKeyStep bs key q3 kvLen st)
    else st

/-- `DuplicantDecoder._parse_minion_identity`. -/
def parseMinionIdentity (bs : ByteSeq) (bstart bend : Nat) : IdentityInfo :=
  let st := parseMinionIdentityGo bs bend (bend + 1) bstart ⟨{}, false⟩
  if !st.foundName then
    match (scanKleiStrings bs bstart bend 32).find? (fun s => isPlausibleName s) with
    | some cand => { st.info with name? := some cand }
    | none => st.info
  else st.info

/-! ### `_parse_minion_resume` -/

/-- The int32 attempt of the aptitude level decode (`0 <= cand <= 10`). -/
def readAptLevelInt (pay : ByteSeq) (rp2 : Nat) : Option (Int × Nat) :=
  if rp2 + 4 ≤ pay.length then
    match readI32? pay rp2 with
    | some cand =>
      if 0 ≤ cand ∧ cand ≤ 10 then some (cand, rp2 + 4) else none
    | none => none
  else none

/-- The float32 fallback of the aptitude level decode
(`0.0 <= fv <= 10.0`, rounded). -/
def readAptLevelFloat (pay : ByteSeq) (rp2 : Nat) : Option (Int × Nat) :=
  if rp2 + 4 ≤ pay.length then
    match readF32? pay rp2 with
    | some (some fv) =>
      if 0 ≤ fv ∧ fv ≤ 10 then some (roundHalfEven fv, rp2 + 4) else none
    | _ => none
  else none

/-- The numeric-level decode of one aptitude entry: an int32 in [0, 10]
first, else a finite float32 in [0.0, 10.0] rounded; value and the
advanced offset. -/
def readAptLevel (pay : ByteSeq) (rp2 : Nat) : Option (Int × Nat) :=
  match readAptLevelInt pay rp2 with
  | some r => some r
  | none => readAptLevelFloat pay rp2

/-- The `AptitudeBySkillGroup` entry loop over the copied payload `pay`
(structural on the declared entry count). -/
def parseAptitudesGo (pay : ByteSeq) :
    Nat → Nat → List (String × Int) → List (String × Int)
  | 0, _, apt => apt
  | n + 1, rp, apt =>
    if rp + 4 > pay.length then apt
    else
      match readI32? pay rp with
      | none => apt
      | some glen =>
        let rp1 := rp + 4
        if glen < 0 ∨ (rp1 : Int) + glen > (pay.length : Int) then apt
        else
          let graw := decodeUtf8Ignore ((slice? pay rp1 glen.toNat).getD [])
          let rp2 := rp1 + glen.toNat
          match readAptLevel pay rp2 with
          | none => parseAptitudesGo pay n (min pay.length (rp2 + 4)) apt
          | some (lvl, rp3) =>
            let gk := mapGroup graw
            let apt' :=
              if gk ≠ "" then
                if lvl > dictGetInt apt gk then dictSet apt gk lvl else apt
              else apt
            parseAptitudesGo pay n rp3 apt'

/-- The `MasteryByRoleID` entry loop (role id, boolean as one byte or,
when no byte remains, a 4-byte int). -/
def parseMasteryGo (pay : ByteSeq) : Nat → Nat → List String → List String
  | 0, _, acc => acc
  | n + 1, rp, acc =>
    if rp + 4 > pay.length then acc
    else
      match readI32? pay rp with
      | none => acc
      | some glen =>
        let rp1 := rp + 4
        if glen < 0 ∨ (rp1 : Int) + glen > (pay.length : Int) then acc
        else
          let roleId := decodeUtf8Ignore ((slice? pay rp1 glen.toNat).getD [])
          let rp2 := rp1 + glen.toNat
          let flagged : Option Bool × Nat :=
            if rp2 + 1 ≤ pay.length then
              (some (((byteAt? pay rp2).getD 0) ≠ 0), rp2 + 1)
            else if rp2 + 4 ≤ pay.length then
              match readI32? pay rp2 with
              | some v => (some (v ≠ 0), rp2 + 4)
              | none => (none, rp2)
            else (none, rp2)
          let acc' :=
            if flagged.1 = some true ∧ roleId ≠ "" then acc ++ [roleId] else acc
          parseMasteryGo pay n flagged.2 acc'

structure ResumeInfo where
  currentRole? : Option String := none
  aptitudes : List (String × Int) := []
  mastered? : Option (List String) := none
deriving Repr, DecidableEq

/-- Key dispatch of the `_parse_minion_resume` key/value loop. -/
def resumeKeyStep (bs : ByteSeq) (key : String) (q2 : Nat) (kvLen : Int)
    (st : ResumeInfo) : ResumeInfo :=
  if key = "currentRole" then
    match embeddedString? bs q2 kvLen with
    | some s => { st with currentRole? := some s }
    | none => st
  else if key = "AptitudeBySkillGroup" then
    let pay := (slice? bs q2 kvLen.toNat).getD []
    match (if 4 ≤ pay.length then readI32? pay 0 else none) with
    | some cnt =>
      if 0 ≤ cnt ∧ cnt ≤ 128 then
        { st with aptitudes := parseAptitudesGo pay cnt.toNat 4 st.aptitudes }
      else st
    | none => st
  else if key = "MasteryByRoleID" then
    let pay := (slice? bs q2 kvLen.toNat).getD []
    match (if 4 ≤ pay.length then readI32? pay 0 else none) with
    | some cnt =>
      if 0 ≤ cnt ∧ cnt ≤ 256 then
        let mastered := parseMasteryGo pay cnt.toNat 4 []
        if mastered ≠ [] then { st with mastered? := some mastered } else st
      else st
    | none => st
  else st

/-- The key/value loop of `_parse_minion_resume`. -/
def parseMinionResumeGo (bs : ByteSeq) (bend : Nat) :
    Nat → Nat → ResumeInfo → ResumeInfo
  | 0, _, st => st
  | fuel + 1, q, st =>
    if q < bend then
      match readKleiString bs q bend with
      | (none, _) => parseMinionResumeGo bs bend fuel (q + 1) st
      | (some key, q2) =>
        if q2 + 4 > bend then st
        else
          match readI32? bs q2 with
          | none => st
          | some kvLen =>
            let q3 := q2 + 4
            if kvLen < 0 ∨ (q3 : Int) + kvLen > (bend : Int) then
              parseMinionResumeGo bs bend fuel q3 st
            else
              parseMinionResumeGo bs bend fuel (q3 + kvLen.toNat)
                (resumeKeyStep bs key q3 kvLen st)
    else st

/-- `DuplicantDecoder._parse_minion_resume`. -/
def parseMinionResume (bs : ByteSeq) (bstart bend : Nat) : ResumeInfo :=
  parseMinionResumeGo bs bend (bend + 1) bstart {}

/-! ### `_parse_minion_modifiers` -/

/-- The (name, payload length, payload) walk of `_parse_minion_modifiers`,
recording for each known label the last in-range finite float32 of its
payload. -/
def parseMinionModifiersGo (bs : ByteSeq) (bend : Nat) :
    Nat → Nat → List (String × ℚ) → List (String × ℚ)
  | 0, _, vitals => vitals
  | fuel + 1, q, vitals =>
    if q + 8 ≤ bend then
      match readKleiString bs q bend with
      | (none, _) => parseMinionModifiersGo bs bend fuel (q + 1) vitals
      | (some name, q2) =>
        if q2 + 4 > bend then vitals
        else
          match readI32? bs q2 with
          | none => vitals
          | some cLen =>
            let q3 := q2 + 4
            if cLen < 0 ∨ (q3 : Int) + cLen > (bend : Int) then
              parseMinionModifiersGo bs bend fuel q3 vitals
            else
              let vitals' :=
                match modifiersLabelMap.lookup name with
                | some (key, lo, hi) =>
                  match scanBestFloat32 bs q3 (q3 + cLen.toNat) lo hi with
                  | some v => dictSet vitals key v
                  | none => vitals
                | none => vitals
              parseMinionModifiersGo bs bend fuel (q3 + cLen.toNat) vitals'
    else vitals

/-- `DuplicantDecoder._parse_minion_modifiers`. -/
def parseMinionModifiers (bs : ByteSeq) (bstart bend : Nat) : List (String × ℚ) :=
  parseMinionModifiersGo bs bend (bend + 1) bstart []

end OniSave

namespace OniSave

/-! ### Traits / effects / accessorizer branches -/

/-- The counted length-prefixed string loop shared by the `Klei.AI.Traits`
and `Klei.AI.Effects` branches (`while parsed < cnt and rp < len(pay)`;
`parsed` increments every iteration, empty strings are skipped). -/
def readCountedStrings (pay : ByteSeq) : Nat → Nat → List String → List String
  | 0, _, acc => acc
  | n + 1, rp, acc =>
    if rp < pay.length then
      if rp + 4 > pay.length then acc
      else
        match readI32? pay rp with
        | none => acc
        | some sl =>
          let rp1 := rp + 4
          if sl < 0 ∨ (rp1 : Int) + sl > (pay.length : Int) then acc
          else
            let s := decodeUtf8Ignore ((slice? pay rp1 sl.toNat).getD [])
            readCountedStrings pay n (rp1 + sl.toNat)
              (if s ≠ "" then acc ++ [s] else acc)
    else acc

/-- Exact-token table of `map_hat_to_role` in the accessorizer branch. -/
def hatExactMap : List (String × String) :=
  [("building", "Builder"), ("mining", "Miner"), ("digging", "Miner"),
   ("research", "Researcher"), ("cooking", "Cook"), ("cook", "Cook"),
   ("farming", "Farmer"), ("farmer", "Farmer"), ("ranching", "Rancher"),
   ("doctor", "Doctor"), ("medical", "Doctor"), ("artist", "Artist"),
   ("operating", "Operator"), ("operator", "Operator"),
   ("engineering", "Engineer"), ("engineer", "Engineer"),
   ("hauling", "Courier"), ("supply", "Courier"), ("tidying", "Sweeper")]

/-- Ordered prefix table of `map_hat_to_role`. -/
def hatPrefixMap : List (String × String) :=
  [("build", "Builder"), ("resear", "Researcher"), ("min", "Miner"),
   ("farm", "Farmer"), ("ranch", "Rancher"), ("operat", "Operator"),
   ("engin", "Engineer"), ("med", "Doctor"), ("cook", "Cook"),
   ("art", "Artist"), ("haul", "Courier"), ("suppl", "Courier"),
   ("tidy", "Sweeper"), ("pyrotech", "Pyrotechnician")]

/-- The part of `s` after the first occurrence of `sep`
(`s.split(sep, 1)[1]`), `none` when `sep` does not occur. -/
def afterFirst (s sep : String) : Option String :=
  ((List.range (s.length + 1)).find?
      (fun i => sep.data.isPrefixOf (s.data.drop i))).map
    (fun i => String.mk (s.data.drop (i + sep.data.length)))

/-- `map_hat_to_role(token)`: the segment after `hat_role_` is matched by
`([a-zA-Z]+)(\d*)`; the alpha group is mapped through the exact table, the
prefix table, then `capitalize`, and a numeric tier becomes a " T<tier>"
suffix. Returns "" when nothing matches. -/
def mapHatToRole (token : String) : String :=
  match afterFirst token "hat_role_" with
  | none => ""
  | some seg =>
    let alphaRun := seg.data.takeWhile (fun c => decide (asciiAlpha c))
    if alphaRun = [] then ""
    else
      let group := pyLower (String.mk alphaRun)
      let tier := String.mk
        ((seg.data.drop alphaRun.length).takeWhile (fun c => decide (asciiDigit c)))
      let base :=
        match hatExactMap.lookup group with
        | some b => b
        | none =>
          match hatPrefixMap.findSome?
              (fun pr => if pyStartsWith group pr.1 then some pr.2 else none) with
          | some b => b
          | none => pyCapitalize group
      base ++ (if tier ≠ "" then " T" ++ tier else "")

/-! ### The Minion instance walk (`extract_minion_details_from_body`) -/

/-- One raw minion dict while the behavior loop runs.  Optional fields model
Python dict keys that may be absent; `job? = none` means no role was
decoded (the final `setdefault("job", "NoRole")` is `finalizeMinion`).
Positions keep the raw float32 bit patterns (the decoder never inspects
their values). -/
structure MinionAcc where
  xbits : Nat := 0
  ybits : Nat := 0
  zbits : Nat := 0
  name? : Option String := none
  gender? : Option String := none
  arrival? : Option Int := none
  job? : Option String := none
  aptitudes : List (String × Int) := []
  mastered? : Option (List String) := none
  traits? : Option (List String) := none
  effects? : Option (List String) := none
  vitals : List (String × ℚ) := []
deriving Repr, DecidableEq

/-- Python `dict.update` over string-keyed entries. -/
def dictMerge {α : Type} (base upd : List (String × α)) : List (String × α) :=
  upd.foldl (fun acc p => dictSet acc p.1 p.2) base

/-- The `MinionIdentity` behavior branch. -/
def behaviorIdentity (bs : ByteSeq) (bstart bend : Nat) (mi : MinionAcc) :
    MinionAcc :=
  let ident := parseMinionIdentity bs bstart bend
  let mi := match ident.name? with
    | some n => { mi with name? := some n }
    | none => mi
  let mi := match ident.gender? with
    | some g => { mi with gender? := some g }
    | none => mi
  match ident.arrival? with
  | some a => { mi with arrival? := some a }
  | none => mi

/-- The `MinionResume` behavior branch (all three fields use `setdefault`,
guarded by truthiness of the decoded value). -/
def behaviorResume (bs : ByteSeq) (bstart bend : Nat) (mi : MinionAcc) :
    MinionAcc :=
  let resume := parseMinionResume bs bstart bend
  let mi := match resume.currentRole? with
    | some r => if mi.job? = none then { mi with job? := some r } else mi
    | none => mi
  let mi :=
    if resume.aptitudes ≠ [] ∧ mi.aptitudes = [] then
      { mi with aptitudes := resume.aptitudes }
    else mi
  match resume.mastered? with
  | some m => if mi.mastered? = none then { mi with mastered? := some m } else mi
  | none => mi

/-- The `Klei.AI.Traits` behavior branch. -/
def behaviorTraits (bs : ByteSeq) (bstart bend : Nat) (mi : MinionAcc) :
    MinionAcc :=
  let pay := (slice? bs bstart (bend - bstart)).getD []
  let cnt : Int :=
    if 4 ≤ pay.length then (readI32? pay 0).getD (-1) else -1
  let traits :=
    if 0 ≤ cnt ∧ cnt ≤ 256 then readCountedStrings pay cnt.toNat 4 [] else []
  if traits ≠ [] then
    let norm := traits.map
      (fun t => if t = "DiversLung" then "DeeperDiversLungs" else t)
    let knownOnly := norm.filter (fun t => knownTraitIds.contains t)
    if knownOnly ≠ [] ∧ mi.traits? = none then
      { mi with traits? := some (pySorted (dedupKeepFirst [] knownOnly)) }
    else mi
  else mi

/-- The `Klei.AI.Effects` behavior branch (`effects` defaults to an empty
list when strings were decoded but none is a known effect id). -/
def behaviorEffects (bs : ByteSeq) (bstart bend : Nat) (mi : MinionAcc) :
    MinionAcc :=
  let pay := (slice? bs bstart (bend - bstart)).getD []
  let cnt? : Option Int := if 4 ≤ pay.length then readI32? pay 0 else none
  let effects :=
    match cnt? with
    | some cnt =>
      if 0 ≤ cnt ∧ cnt ≤ 512 then readCountedStrings pay cnt.toNat 4 [] else []
    | none => []
  if effects ≠ [] then
    let known := effects.filter (fun e => knownEffectIds.contains e)
    if mi.effects? = none then
      if known ≠ [] then
        { mi with effects? := some (pySorted (dedupKeepFirst [] known)) }
      else { mi with effects? := some [] }
    else mi
  else mi

/-- The `MinionModifiers` / `Modifiers` behavior branch. -/
def behaviorModifiers (bs : ByteSeq) (bstart bend : Nat) (mi : MinionAcc) :
    MinionAcc :=
  let vit := parseMinionModifiers bs bstart bend
  if vit ≠ [] then { mi with vitals := dictMerge mi.vitals vit } else mi

/-- The `Accessorizer` / `WearableAccessorizer` behavior branch. -/
def behaviorAccessorizer (bs : ByteSeq) (bstart bend : Nat) (mi : MinionAcc) :
    MinionAcc :=
  let strings := scanKleiStrings bs bstart bend 128
  let hatTokens := strings.filter (fun s => strContains s "hat_role_")
  match hatTokens.findSome?
      (fun t => let m := mapHatToRole t; if m ≠ "" then some m else none) with
  | some mapped => if mi.job? = none then { mi with job? := some mapped } else mi
  | none => mi

/-- The behavior-name dispatch (the `elif` chain; the second
`MinionResume` arm of the Python chain is unreachable because the first
arm matches the same name, so it has no counterpart here). -/
def processBehavior (bs : ByteSeq) (behName : String) (bstart bend : Nat)
    (mi : MinionAcc) : MinionAcc :=
  if behName = "MinionIdentity" then behaviorIdentity bs bstart bend mi
  else if behName = "MinionResume" then behaviorResume bs bstart bend mi
  else if behName = "Klei.AI.Traits" ∨ behName = "Traits" then
    behaviorTraits bs bstart bend mi
  else if behName = "Klei.AI.Effects" ∨ behName = "Effects" then
    behaviorEffects bs bstart bend mi
  else if behName = "MinionModifiers" ∨ behName = "Modifiers" then
    behaviorModifiers bs bstart bend mi
  else if behName = "Accessorizer" ∨ behName = "WearableAccessorizer" then
    behaviorAccessorizer bs bstart bend mi
  else mi

/-- The behavior loop of one Minion instance; returns the accumulated
minion and the final stream position (breaks leave `p` mid-stream exactly
as the Python `break` does). -/
def behaviorsLoop (bs : ByteSeq) : Nat → Nat → MinionAcc → MinionAcc × Nat
  | 0, p, mi => (mi, p)
  | n + 1, p, mi =>
    if p + 4 > bs.length then (mi, p)
    else
      match readI32? bs p with
      | none => (mi, p)
      | some behNameLen =>
        let p1 := p + 4
        if behNameLen < 0 ∨ (p1 : Int) + behNameLen > (bs.length : Int) then (mi, p1)
        else
          let behName := decodeUtf8Ignore ((slice? bs p1 behNameLen.toNat).getD [])
          let p2 := p1 + behNameLen.toNat
          if p2 + 4 > bs.length then (mi, p2)
          else
            match readI32? bs p2 with
            | none => (mi, p2)
            | some behLen =>
              let p3 := p2 + 4
              let behEnd := p3 + (max 0 behLen).toNat
              if behEnd > bs.length then (mi, p3)
              else
                behaviorsLoop bs n behEnd (processBehavior bs behName p3 behEnd mi)

/-- `setdefault` defaults applied after the behavior loop:
`arrival_time` 0, `job` "NoRole", `traits` and `effects` `[]`. -/
def finalizeMinion (mi : MinionAcc) : MinionAcc :=
  { mi with
    arrival? := some (mi.arrival?.getD 0)
    job? := some (mi.job?.getD "NoRole")
    traits? := some (mi.traits?.getD [])
    effects? := some (mi.effects?.getD []) }

/-- The instance loop of the `Minion` group, collecting the raw
(pre-`setdefault`) minion dicts; `finalizeMinion` is applied to each
element by `extractMinionDetailsFromBody`, which is the same as applying
it at each append. -/
def instancesLoop (bs : ByteSeq) : Nat → Nat → List MinionAcc →
    List MinionAcc × Nat
  | 0, p, acc => (acc, p)
  | n + 1, p, acc =>
    if p + (3 + 4 + 3) * 4 + 1 + 4 > bs.length then (acc, p)
    else
      let xb := (readU32? bs p).getD 0
      let yb := (readU32? bs (p + 4)).getD 0
      let zb := (readU32? bs (p + 8)).getD 0
      let p1 := p + 12 + 16 + 12 + 1
      match readI32? bs p1 with
      | none => (acc, p1)
      | some behaviorCount =>
        let p2 := p1 + 4
        let mi0 : MinionAcc := { xbits := xb, ybits := yb, zbits := zb }
        let (mi, p3) := behaviorsLoop bs (max 0 behaviorCount).toNat p2 mi0
        instancesLoop bs n p3 (acc ++ [mi])

/-- The group loop of `extract_minion_details_from_body`. -/
def groupsLoop (bs : ByteSeq) : Nat → Nat → List MinionAcc → List MinionAcc
  | 0, _, acc => acc
  | n + 1, p, acc =>
    if p + 4 > bs.length then acc
    else
      match readI32? bs p with
      | none => acc
      | some nameLen =>
        let p1 := p + 4
        if nameLen < 0 ∨ (p1 : Int) + nameLen > (bs.length : Int) then acc
        else
          let name := decodeUtf8Ignore ((slice? bs p1 nameLen.toNat).getD [])
          let p2 := p1 + nameLen.toNat
          if p2 + 8 > bs.length then acc
          else
            match readI32? bs p2, readI32? bs (p2 + 4) with
            | some instanceCount, some dataLength =>
              let p3 := p2 + 8
              if name = "Minion" ∧ 0 < instanceCount then
                let (acc', p4) := instancesLoop bs instanceCount.toNat p3 acc
                groupsLoop bs n p4 acc'
              else
                let p4 := p3 + (max 0 dataLength).toNat
                if p4 > bs.length then acc
                else groupsLoop bs n p4 acc
            | _, _ => acc

/-- The group walk of `extract_minion_details_from_body` before the final
`setdefault` lines: locate `KSAV`, read version and group count, walk the
groups and collect the raw minion dicts. -/
def extractMinionRaw (body : ByteSeq) : List MinionAcc :=
  let ksav := pyFind body [75, 83, 65, 86]
  if ksav = -1 then []
  else
    let p := ksav.toNat + 4
    if p + 8 > body.length then []
    else if p + 8 + 4 > body.length then []
    else
      match readI32? body (p + 8) with
      | none => []
      | some groupCount => groupsLoop body (max 0 groupCount).toNat (p + 12) []

/-- `DuplicantDecoder.extract_minion_details_from_body`: the raw walk with
the `setdefault` defaults applied to every collected minion. -/
def extractMinionDetailsFromBody (body : ByteSeq) : List MinionAcc :=
  (extractMinionRaw body).map finalizeMinion

end OniSave

namespace OniSave

/-! ### `ksav_index.py`: group counts and summaries -/

/-- Group loop of `KSAVGroupCounter.extract_object_group_counts`: each
readable group records `counts[name] = instance_count`; a negative or
overrunning payload length stops after recording. -/
def ogcLoop (body : ByteSeq) : Nat → Nat → List (String × Int) →
    List (String × Int)
  | 0, _, counts => counts
  | n + 1, p, counts =>
    if p + 4 > body.length then counts
    else
      match readI32? body p with
      | none => counts
      | some nameLen =>
        let p1 := p + 4
        if nameLen < 0 ∨ (p1 : Int) + nameLen > (body.length : Int) then counts
        else
          let name := decodeUtf8Ignore ((slice? body p1 nameLen.toNat).getD [])
          let p2 := p1 + nameLen.toNat
          if p2 + 8 > body.length then counts
          else
            match readI32? body p2, readI32? body (p2 + 4) with
            | some instanceCount, some payloadLen =>
              let counts' := dictSet counts name instanceCount
              if payloadLen < 0 then counts'
              else
                let p3 := p2 + 8 + payloadLen.toNat
                if p3 > body.length then counts'
                else ogcLoop body n p3 counts'
            | _, _ => counts

/-- `KSAVGroupCounter.extract_object_group_counts`. -/
def extractObjectGroupCounts (body : ByteSeq) : List (String × Int) :=
  if body = [] then []
  else
    let ksav := pyFind body [75, 83, 65, 86]
    if ksav = -1 then []
    else
      let p := ksav.toNat + 4
      if p + 12 > body.length then []
      else
        match readI32? body (p + 8) with
        | none => []
        | some groupCount =>
          if groupCount < 0 then []
          else ogcLoop body groupCount.toNat (p + 12) []

structure KsavSummary where
  groupCount : Int
  totalInstances : Int
deriving Repr, DecidableEq

/-- Group loop of `KSAVGroupCounter.summarize`: accumulate the instance
counts of readable groups. -/
def summarizeGo (body : ByteSeq) : Nat → Nat → Int → Int
  | 0, _, total => total
  | n + 1, p, total =>
    if p + 4 > body.length then total
    else
      match readI32? body p with
      | none => total
      | some nameLen =>
        let p1 := p + 4
        if nameLen < 0 ∨ (p1 : Int) + nameLen > (body.length : Int) then total
        else
          let p2 := p1 + nameLen.toNat
          if p2 + 8 > body.length then total
          else
            match readI32? body p2, readI32? body (p2 + 4) with
            | some instanceCount, some dataLength =>
              let total' := total + instanceCount
              let p3 := p2 + 8 + (max 0 dataLength).toNat
              if p3 > body.length then total'
              else summarizeGo body n p3 total'
            | _, _ => total

/-- `KSAVGroupCounter.summarize`.  The KSAV header guard only checks
`pos + 12 ≤ len(body)` although the three following int32 reads touch
bytes up to `pos + 16`; on a 13..15-byte tail the Python `struct.unpack_from`
raises, which this model reports as `none`.  The reported `group_count` is
the header value itself, whatever the walk then managed to read. -/
def summarize (body : ByteSeq) : Option KsavSummary :=
  if body = [] then some ⟨0, 0⟩
  else
    let pos := pyFind body [75, 83, 65, 86]
    if pos = -1 ∨ pos + 12 > (body.length : Int) then some ⟨0, 0⟩
    else
      match readI32? body (pos.toNat + 4), readI32? body (pos.toNat + 8),
          readI32? body (pos.toNat + 12) with
      | some _, some _, some groupCount =>
        some ⟨groupCount,
          summarizeGo body (max 0 groupCount).toNat (pos.toNat + 16) 0⟩
      | _, _, _ => none

/-! ### `compressed_blocks.py` and `metadata_builder.py` -/

/-- Abstraction of `zlib.decompress` applied to a byte suffix: `some` is a
successful inflate of a stream starting at that position, `none` any
`zlib.error`.  All theorems below hold for every such oracle. -/
abbrev Inflate := ByteSeq → Option ByteSeq

/-- The three zlib signature byte pairs scanned for. -/
def zlibSigs : List ByteSeq := [[0x78, 0x9c], [0x78, 0xda], [0x78, 0x01]]

/-- `CompressedBlocksScanner.parse_header_raw` (the identical
`OniSaveParser._parse_header_raw` is the same function): offset just after
the header JSON plus the compression flag. -/
def parseHeaderRaw (bs : ByteSeq) : Nat × Bool :=
  if bs.length < 12 then (0, false)
  else
    let headerSize := (readU32? bs 4).getD 0
    let headerVersion := (readU32? bs 8).getD 0
    if 1 ≤ headerVersion then
      if 12 + 4 > bs.length then (0, false)
      else
        let isCompressed := (readU32? bs 12).getD 0 ≠ 0
        let pEnd := 16 + headerSize
        if pEnd > bs.length then (0, isCompressed) else (pEnd, isCompressed)
    else
      let pEnd := 12 + headerSize
      if pEnd > bs.length then (0, false) else (pEnd, false)

/-- `CompressedBlocksScanner.decompress_body_block` (identical to
`OniSaveParser._decompress_body_block`): candidate signature positions
after the header, sorted and deduplicated, first inflate whose output
contains `KSAV` wins. -/
def decompressBodyBlock (inflate : Inflate) (bs : ByteSeq) : Option ByteSeq :=
  let start := (parseHeaderRaw bs).1
  let search := bs.drop start
  let candidates :=
    (zlibSigs.map (fun sig => (findAll search sig).map (· + start))).flatten
  let sorted := stableSort (fun a b => decide (a ≤ b)) candidates.dedup
  sorted.findSome? (fun pos =>
    match inflate (bs.drop pos) with
    | some d => if pyFind d [75, 83, 65, 86] ≠ -1 then some d else none
    | none => none)

/-- One CRC-32 bit round (reflected polynomial 0xEDB88320). -/
def crc32Round (x : Nat) : Nat :=
  if x % 2 = 1 then (x / 2) ^^^ 0xEDB88320 else x / 2

/-- Absorb one byte into the running CRC-32. -/
def crc32Update (crc b : Nat) : Nat :=
  crc32Round^[8] (crc ^^^ b % 256)

/-- `binascii.crc32(data) & 0xFFFFFFFF`. -/
def crc32 (bs : ByteSeq) : Nat :=
  bs.foldl crc32Update 0xFFFFFFFF ^^^ 0xFFFFFFFF

/-- Lowercase hex digit. -/
def hexDigit (n : Nat) : Char :=
  if n < 10 then Char.ofNat (48 + n) else Char.ofNat (87 + n)

/-- `bytes.hex()`. -/
def hexOfBytes (bs : ByteSeq) : String :=
  String.join (bs.map (fun b => String.mk [hexDigit (b % 256 / 16), hexDigit (b % 16)]))

/-- `format(n, "08x")` for `n < 2^32`. -/
def hex8 (n : Nat) : String :=
  String.mk (((List.range 8).reverse).map (fun i => hexDigit (n / 16 ^ i % 16)))

structure SaveBlockInfo where
  offset : Nat
  header : String
  compressedSize : Nat
  decompressedSize : Nat
  crc32 : String
deriving Repr, DecidableEq

structure SaveGameMetadata where
  blocks : List SaveBlockInfo
  ksavSummary : KsavSummary
deriving Repr, DecidableEq

/-- Record one diagnostics block at `absPos` when the suffix inflates. -/
def mkBlock? (inflate : Inflate) (bs : ByteSeq) (absPos : Nat) :
    Option SaveBlockInfo :=
  match inflate (bs.drop absPos) with
  | some d =>
    some { offset := absPos
           header := hexOfBytes ((bs.drop absPos).take 10)
           compressedSize := bs.length - absPos
           decompressedSize := d.length
           crc32 := hex8 (crc32 d) }
  | none => none

/-- One visit of the signature scan: skip a seen position, otherwise mark
it seen and append the block when the suffix inflates. -/
def metadataScanStep (inflate : Inflate) (bs : ByteSeq)
    (st : List Nat × List SaveBlockInfo) (pos : Nat) :
    List Nat × List SaveBlockInfo :=
  if st.1.contains pos then st
  else
    match mkBlock? inflate bs pos with
    | some b => (pos :: st.1, st.2 ++ [b])
    | none => (pos :: st.1, st.2)

/-- The signature scan of `MetadataBuilder.build`: visit, per signature,
every occurrence in `file_bytes[start_after_header:]`, skip positions seen
before, record a block for every successful inflate. -/
def metadataScan (inflate : Inflate) (bs : ByteSeq) (start : Nat) :
    List SaveBlockInfo :=
  let visits :=
    (zlibSigs.map (fun sig => (findAll (bs.drop start) sig).map (· + start))).flatten
  (visits.foldl (metadataScanStep inflate bs) ([], [])).2

/-- `MetadataBuilder.build`: `none` models the uncaught exception that
`summarize` can raise on a truncated KSAV header. -/
def metadataBuild (inflate : Inflate) (bs : ByteSeq)
    (cachedBody : Option ByteSeq) : Option SaveGameMetadata :=
  if bs = [] then some ⟨[], ⟨0, 0⟩⟩
  else
    let start := (parseHeaderRaw bs).1
    let blocks := metadataScan inflate bs start
    let body : ByteSeq :=
      match cachedBody with
      | some b => if b ≠ [] then b else (decompressBodyBlock inflate bs).getD []
      | none => (decompressBodyBlock inflate bs).getD []
    if body ≠ [] then (summarize body).map (fun s => ⟨blocks, s⟩)
    else some ⟨blocks, ⟨0, 0⟩⟩

end OniSave

namespace OniSave

/-! ### Header JSON values and the parse pipeline (`save_parser.py`) -/

/-- JSON values as produced by `json.loads` (numbers restricted to
integers: the version/count fields the pipeline inspects are integral). -/
inductive Json where
  | num (n : Int)
  | str (s : String)
  | bool (b : Bool)
  | null
  | arr (l : List Json)
  | obj (l : List (String × Json))
deriving Repr

/-- Python truthiness of a JSON value. -/
def pyTruthy : Json → Bool
  | .num n => n ≠ 0
  | .str s => s ≠ ""
  | .bool b => b
  | .null => false
  | .arr l => !l.isEmpty
  | .obj l => !l.isEmpty

/-- Python `a or b` on JSON values. -/
def pyOrJson (a b : Json) : Json := if pyTruthy a then a else b

/-- Python `str(x)` (container cases abbreviated; no claim inspects them). -/
def pyStr : Json → String
  | .num n => toString n
  | .str s => s
  | .bool b => if b then "True" else "False"
  | .null => "None"
  | .arr _ => "[...]"
  | .obj _ => "\x7b...\x7d"

/-- Python `int(x)`: identity on ints, 0/1 on bools, digit parsing on
strings (whitespace/underscore forms omitted: the claims only exercise
plainly numeric or plainly non-numeric values), `TypeError` otherwise. -/
def pyToInt : Json → Except String Int
  | .num n => .ok n
  | .bool b => .ok (if b then 1 else 0)
  | .str s =>
    let body := if pyStartsWith s "-" then (s.data.drop 1) else s.data
    if body ≠ [] ∧ body.all (fun c => decide (asciiDigit c)) then
      let v : Int := body.foldl (fun acc c => acc * 10 + ((c.toNat : Int) - 48)) 0
      .ok (if pyStartsWith s "-" then -v else v)
    else .error ("invalid literal for int() with base 10: " ++ s)
  | _ => .error "int() argument must be a string, a bytes-like object or a real number"

/-- `dict.get(k)` (keys of a parsed JSON object are unique). -/
def jsonGet (gi : List (String × Json)) (k : String) : Option Json :=
  (gi.find? (fun p => p.1 = k)).map (·.2)

/-- Abstraction of `info_bytes.decode("utf-8")` followed by `json.loads`:
`.error` carries the exception text of either step. -/
abbrev JsonOracle := ByteSeq → Except String Json

/-- `BinaryReader.read_bytes`: the exception text is the literal f-string
of the source. -/
def readerBytes (bs : ByteSeq) (p count : Nat) : Except String ByteSeq :=
  if p + count ≤ bs.length then .ok (((bs.drop p).take count).map (· % 256))
  else .error ("Expected " ++ toString count ++ " bytes, got " ++
    toString (bs.length - p))

/-- `BinaryReader.read_uint32`. -/
def readerU32 (bs : ByteSeq) (p : Nat) : Except String Nat :=
  (readerBytes bs p 4).map (fun l => l.foldr (fun b acc => b + 256 * acc) 0)

structure HeaderInfo where
  gameInfo : List (String × Json)
  clusterId : Json
  numCycles : Json
  numDuplicants : Json
deriving Repr

/-- `OniSaveParser._parse_header`: fixed fields, then `header_size` bytes
of JSON; populates `cluster_id` / `num_cycles` / `num_duplicants` from the
raw JSON object and then merges `buildVersion` / `headerVersion` /
`isCompressed` back into `game_info`.  Returns the header and the reader
position after the JSON.  A non-object JSON value makes the `.get` calls
raise, which the except-block re-raises like every other header failure. -/
def parseHeader (jsonO : JsonOracle) (bs : ByteSeq) :
    Except String (HeaderInfo × Nat) := do
  let buildVersion ← readerU32 bs 0
  let headerSize ← readerU32 bs 4
  let headerVersion ← readerU32 bs 8
  let flagged : (Option Nat) × Nat ←
    if 1 ≤ headerVersion then do
      let c ← readerU32 bs 12
      pure (some c, 16)
    else pure (none, 12)
  let infoBytes ← readerBytes bs flagged.2 headerSize
  match jsonO infoBytes with
  | .error e => .error e
  | .ok (.obj gi) =>
    let isCompressed := match flagged.1 with
      | some c => c ≠ 0
      | none => false
    let gi' := dictSet (dictSet (dictSet gi
      "buildVersion" (.num buildVersion))
      "headerVersion" (.num headerVersion))
      "isCompressed" (.bool isCompressed)
    .ok ({ gameInfo := gi'
           clusterId := (jsonGet gi "clusterId").getD (.str "")
           numCycles := (jsonGet gi "numberOfCycles").getD (.num 0)
           numDuplicants := (jsonGet gi "numberOfDuplicants").getD (.num 0) },
         flagged.2 + headerSize)
  | .ok _ => .error "'list' object has no attribute 'get'"

structure VersionJ where
  major : Json
  minor : Json
deriving Repr

/-- Python `j == 7` for a JSON value (`True == 7` is false, so bools fold
into the default arm). -/
def jsonEqInt (j : Json) (n : Int) : Bool :=
  match j with
  | .num m => m = n
  | _ => false

/-- `OniSaveParser._validate_version`: a major version other than 7 raises
`ValueError`; an out-of-range minor version only calls
`self.logger.warning` — it never touches `ParseResult.warnings`, which is
why the version check contributes nothing to the returned warnings.  A
non-numeric minor makes the chained comparison raise `TypeError`. -/
def validateVersion (v : VersionJ) : Except String Unit :=
  if ¬ jsonEqInt v.major 7 then
    .error ("Unsupported major version " ++ pyStr v.major ++ ". Expected 7")
  else
    match v.minor with
    | .num _ => .ok ()
    | .bool _ => .ok ()
    | _ => .error "'<=' not supported between instances of 'int' and this value"

/-- ASCII byte encoding of a literal token. -/
def asciiBytes (s : String) : ByteSeq := s.data.map (·.toNat)

/-- The template names probed for by `_parse_templates`. -/
def templatesKeys : List ByteSeq :=
  [asciiBytes "MinionIdentity", asciiBytes "MinionResume",
   asciiBytes "MinionModifiers", asciiBytes "Klei.AI.Traits",
   asciiBytes "Klei.AI.Effects"]

/-- `OniSaveParser._parse_templates` (reader position is restored, so only
the warning it may add is observable downstream). -/
def parseTemplatesWarnings (bs : ByteSeq) (pos : Nat) : List String :=
  let blob := bs.drop pos
  if templatesKeys.all (fun k => pyFind blob k = -1) then
    ["Type templates parsing minimal: names not detected"]
  else []

structure WorldInfo where
  widthInCells : Int
  heightInCells : Int
deriving Repr, DecidableEq

/-- `find_int_after` inside `_parse_world`: first plausible int32 in a
256-byte window after the label. -/
def findIntAfter (body label : ByteSeq) (dflt : Int) : Int :=
  match findSubFrom body label 0 with
  | none => dflt
  | some idx =>
    let window := (body.drop idx.toNat).take 256
    let hi := max label.length (window.length - 4)
    match ((List.range hi).drop label.length).findSome? (fun off =>
        match readI32? window off with
        | some v => if 8 ≤ v ∧ v ≤ 10000 then some v else none
        | none => none) with
    | some v => v
    | none => dflt

/-- `OniSaveParser._parse_world`: header-derived dimensions with the label
scan fallback; an `int()` failure is caught and turned into a warning, and
the success path always appends the preserved-as-binary warning. -/
def parseWorld (bs : ByteSeq) (pos : Nat) (gi : List (String × Json)) :
    WorldInfo × List String :=
  let wj := pyOrJson ((jsonGet gi "WidthInCells").getD (.num 0))
    (pyOrJson ((jsonGet gi "widthInCells").getD (.num 0)) (.num 0))
  match pyToInt wj with
  | .error e => (⟨0, 0⟩, ["World parsing error: " ++ e])
  | .ok w =>
    let hj := pyOrJson ((jsonGet gi "HeightInCells").getD (.num 0))
      (pyOrJson ((jsonGet gi "heightInCells").getD (.num 0)) (.num 0))
    match pyToInt hj with
    | .error e => (⟨w, 0⟩, ["World parsing error: " ++ e])
    | .ok h =>
      let body := bs.drop pos
      let w' := if w = 0 ∨ h = 0 then
          (if w = 0 then findIntAfter body (asciiBytes "WidthInCells") w else w)
        else w
      let h' := if w = 0 ∨ h = 0 then
          (if h = 0 then findIntAfter body (asciiBytes "HeightInCells") h else h)
        else h
      (⟨w', h'⟩, ["World data preserved as binary (not parsed)"])

structure SaveGameM where
  header : HeaderInfo
  version : VersionJ
  world : WorldInfo
deriving Repr

structure Entities where
  duplicants : List MinionAcc := []
  objectGroupCounts : Option (List (String × Int)) := none
deriving Repr, DecidableEq

structure ParseResultM where
  success : Bool := false
  saveGame : Option SaveGameM := none
  errorMessage : String := ""
  warnings : List String := []
  entities : Entities := {}
deriving Repr

/-- Modelled from the spec: the flow in §2 routes the KSAV group walk
into the parse result (`parse(bytes) → ... → KSAVGroupWalker (counts)`),
and §8 requires `parse` to return `object_group_counts`; the repository
tests read `result.entities["object_group_counts"]` and call
`OniSaveParser._extract_object_group_counts_from_body`, but that wiring
method is absent from the checked-in `save_parser.py`.  Following the
spec, the entity is the group-count map of the decompressed body (the
`extract_object_group_counts` walk of `ksav_index.py`, which is present),
empty when no body is found. -/
def objectGroupCountsEntity (inflate : Inflate) (bs : ByteSeq) :
    List (String × Int) :=
  extractObjectGroupCounts ((decompressBodyBlock inflate bs).getD [])

/-- The fixed warnings of the stub sections
(`_parse_settings` / `_parse_sim_data` / `_parse_game_objects` /
`_parse_game_data`). -/
def stubSectionWarnings : List String :=
  ["Settings parsing not yet implemented",
   "Simulation data preserved as binary",
   "Game objects parsing not yet implemented",
   "Game data parsing not yet implemented"]

/-- `OniSaveParser.parse_save_file` over in-memory bytes (the file read is
outside the model).  Header failure adds the header warning and the error
message; a version failure leaves warnings empty; on success the section
stubs contribute their fixed warnings, and the convenience entities are
extracted from the decompressed body (the parser has two near-identical
duplicant walks — the inline one and `DuplicantDecoder` — duplicated as
noted by spec §9; the model uses the modular decoder, and no theorem below
depends on their delta). -/
def parseSaveFile (jsonO : JsonOracle) (inflate : Inflate) (bs : ByteSeq) :
    ParseResultM :=
  match parseHeader jsonO bs with
  | .error e =>
    { errorMessage := e, warnings := ["Header parsing error: " ++ e] }
  | .ok (header, posAfter) =>
    let gi := header.gameInfo
    let version : VersionJ :=
      { major := (jsonGet gi "saveMajorVersion").getD (.num 7)
        minor := (jsonGet gi "saveMinorVersion").getD (.num 36) }
    match validateVersion version with
    | .error e => { errorMessage := e }
    | .ok _ =>
      let wT := parseTemplatesWarnings bs posAfter
      let (world, wW) := parseWorld bs posAfter gi
      let body? := decompressBodyBlock inflate bs
      let dups := match body? with
        | some b => extractMinionDetailsFromBody b
        | none => []
      { success := true
        saveGame := some { header := header, version := version, world := world }
        warnings := wT ++ wW ++ stubSectionWarnings
        entities := { duplicants := dups
                      objectGroupCounts := some (objectGroupCountsEntity inflate bs) } }

end OniSave

namespace OniSave

/-! ### `data_extractor.py`: the contract document -/

/-- The twelve fixed vitals keys of the canonical entry. -/
structure VitalsOut where
  calories : Option ℚ := none
  health : Option ℚ := none
  stress : Option ℚ := none
  stamina : Option ℚ := none
  decor : Option ℚ := none
  temperature : Option ℚ := none
  breath : Option ℚ := none
  bladder : Option ℚ := none
  immuneLevel : Option ℚ := none
  toxicity : Option ℚ := none
  radiationBalance : Option ℚ := none
  morale : Option ℚ := none
deriving Repr, DecidableEq

/-- `vitals.get(k)`. -/
def vitalsGet (v : List (String × ℚ)) (k : String) : Option ℚ :=
  (v.find? (fun p => p.1 = k)).map (·.2)

/-- `float(entry.get("x", 0.0) or 0.0)` on a raw float32 bit pattern:
`or` sends the falsy ±0.0 to 0.0; everything else (NaN included) is kept
as its bits. -/
def pyOrFloatBits (bits : Nat) : Nat :=
  if decodeF32 bits = some 0 then 0 else bits % 2 ^ 32

/-- The canonical duplicant entry produced by `_map_minion_entry`. -/
structure CanonicalDup where
  name : Option String
  gender : Option String
  arrivalTime : Int
  role : String
  vitals : VitalsOut
  traits : List String
  effects : List String
  aptitudes : List (String × Int)
  xbits : Nat
  ybits : Nat
  zbits : Nat
deriving Repr, DecidableEq

/-- `data_extractor._map_minion_entry`: normalize one raw minion dict to
the contract schema (`role` is `entry.get("job", "NoRole") or "NoRole"`). -/
def mapMinionEntry (m : MinionAcc) : CanonicalDup :=
  { name := m.name?
    gender := m.gender?
    arrivalTime := m.arrival?.getD 0
    role := (fun j => if j = "" then "NoRole" else j) (m.job?.getD "NoRole")
    vitals :=
      { calories := vitalsGet m.vitals "calories"
        health := vitalsGet m.vitals "health"
        stress := vitalsGet m.vitals "stress"
        stamina := vitalsGet m.vitals "stamina"
        decor := vitalsGet m.vitals "decor"
        temperature := vitalsGet m.vitals "temperature"
        breath := vitalsGet m.vitals "breath"
        bladder := vitalsGet m.vitals "bladder"
        immuneLevel := vitalsGet m.vitals "immune_level"
        toxicity := vitalsGet m.vitals "toxicity"
        radiationBalance := vitalsGet m.vitals "radiation_balance"
        morale := vitalsGet m.vitals "morale" }
    traits := m.traits?.getD []
    effects := m.effects?.getD []
    aptitudes := m.aptitudes
    xbits := pyOrFloatBits m.xbits
    ybits := pyOrFloatBits m.ybits
    zbits := pyOrFloatBits m.zbits }

/-- `compute_histograms` (phase 1): constant empty histograms with stable
keys, independent of the sim blob and dimensions. -/
def computeHistograms : List (String × List (String × Int)) :=
  [("elements", []), ("temperatures", []), ("diseases", []), ("radiation", [])]

structure WorldGridSummaryOut where
  width : Int
  height : Int
  cellCount : Int
  histograms : List (String × List (String × Int))
  breathablePercent : Option ℚ
  warnings : List String
deriving Repr, DecidableEq

structure DocMetadata where
  version : String
  cycles : Int
  duplicantCount : Int
  baseName : Json
  clusterId : Json
  gameInfo : List (String × Json)
deriving Repr

structure ContractDoc where
  metadata : DocMetadata
  duplicantsCount : Int
  duplicantsList : List CanonicalDup
  worldGridSummary : WorldGridSummaryOut
  objectGroupCounts : List (String × Int)
deriving Repr

/-- `SaveFileDataExtractor.extract` (`data_extractor.py`): pure projection
of the parsed save and entities into the four-section contract document.
`duplicants.count` is `int(getattr(save.header, "num_duplicants",
len(duplicants_list)) or len(duplicants_list))` — the header value when it
is truthy, the decoded list length otherwise.  `.error` models an `int()`
conversion raising on a malformed header value. -/
def extract (save : SaveGameM) (entities : Entities) :
    Except String ContractDoc := do
  let gi := save.header.gameInfo
  let cycles ← pyToInt (pyOrJson save.header.numCycles (.num 0))
  let duplicantCount ← pyToInt (pyOrJson save.header.numDuplicants (.num 0))
  let metadata : DocMetadata :=
    { version := pyStr save.version.major ++ "." ++ pyStr save.version.minor
      cycles := cycles
      duplicantCount := duplicantCount
      baseName := pyOrJson ((jsonGet gi "baseName").getD (.str "")) (.str "")
      clusterId := pyOrJson save.header.clusterId
        ((jsonGet gi "clusterId").getD (.str ""))
      gameInfo := gi }
  let duplicantsList := entities.duplicants.map mapMinionEntry
  let count ←
    if pyTruthy save.header.numDuplicants then pyToInt save.header.numDuplicants
    else pure ((duplicantsList.length : Int))
  let objectGroupCounts := (entities.objectGroupCounts.getD [])
  let ww := save.world.widthInCells
  let wh := save.world.heightInCells
  let cellCount := if 0 < ww ∧ 0 < wh then ww * wh else 0
  pure { metadata := metadata
         duplicantsCount := count
         duplicantsList := duplicantsList
         worldGridSummary :=
           { width := ww, height := wh, cellCount := cellCount
             histograms := computeHistograms
             breathablePercent := none, warnings := [] }
         objectGroupCounts := objectGroupCounts }

/-- The CLI flow of `scripts/parse_save.py`: parse, and when a save game
was produced, extract the contract document from it; `none` when parsing
failed. -/
def parseAndExtract (jsonO : JsonOracle) (inflate : Inflate) (bs : ByteSeq) :
    Option (Except String ContractDoc) :=
  let r := parseSaveFile jsonO inflate bs
  match r.saveGame with
  | some sg => some (extract sg r.entities)
  | none => none

end OniSave

namespace OniSave

/-! ### Concrete inputs used by the claim theorems -/

/-- Little-endian 4-byte encoding of a natural (used to assemble test
buffers; all encoded values fit in 31 bits, so they are their own int32). -/
def le32n (n : Nat) : ByteSeq :=
  [n % 256, n / 256 % 256, n / 65536 % 256, n / 16777216 % 256]

/-- A Klei length-prefixed ASCII string. -/
def kleiStr (s : String) : ByteSeq := le32n s.length ++ asciiBytes s

/-- An inflate oracle for inputs with no compressed data. -/
def noInflate : Inflate := fun _ => none

/-- Header JSON oracle reporting `saveMajorVersion = 5`. -/
def c1Oracle : JsonOracle := fun b =>
  if b = asciiBytes "MJ" then .ok (.obj [("saveMajorVersion", .num 5)])
  else .error "Expecting value: line 1 column 1 (char 0)"

/-- build_version 0, header_size 2, header_version 0, two JSON bytes. -/
def c1File : ByteSeq := le32n 0 ++ le32n 2 ++ le32n 0 ++ asciiBytes "MJ"

/-- Header JSON oracle reporting `saveMinorVersion = 50` (major absent,
defaulting to 7). -/
def c4Oracle : JsonOracle := fun b =>
  if b = asciiBytes "MN" then .ok (.obj [("saveMinorVersion", .num 50)])
  else .error "Expecting value: line 1 column 1 (char 0)"

def c4File : ByteSeq := le32n 0 ++ le32n 2 ++ le32n 0 ++ asciiBytes "MN"

/-- The sixteen-byte buffer of C6: `KSAV`, major 7, minor 11,
group_count 1, nothing else. -/
def c6Buf : ByteSeq := asciiBytes "KSAV" ++ le32n 7 ++ le32n 11 ++ le32n 1

/-! C3: a body with one Minion whose MinionResume carries
`AptitudeBySkillGroup = [("Mining", 10)]`. -/

def c3AptPayload : ByteSeq := le32n 1 ++ kleiStr "Mining" ++ le32n 10

def c3ResumePayload : ByteSeq :=
  kleiStr "AptitudeBySkillGroup" ++ le32n c3AptPayload.length ++ c3AptPayload

def c3Body : ByteSeq :=
  asciiBytes "KSAV" ++ le32n 7 ++ le32n 11 ++ le32n 1 ++
  kleiStr "Minion" ++ le32n 1 ++
  le32n (41 + 4 + (kleiStr "MinionResume").length + 4 + c3ResumePayload.length) ++
  List.replicate 41 0 ++ le32n 1 ++
  kleiStr "MinionResume" ++ le32n c3ResumePayload.length ++ c3ResumePayload

/-! C7: a body with one Minion whose MinionResume carries
`currentRole = "NoRole"` — a successfully decoded role whose value is the
literal default. -/

def c7RolePayload : ByteSeq :=
  kleiStr "currentRole" ++ le32n (kleiStr "NoRole").length ++ kleiStr "NoRole"

def c7Body : ByteSeq :=
  asciiBytes "KSAV" ++ le32n 7 ++ le32n 11 ++ le32n 1 ++
  kleiStr "Minion" ++ le32n 1 ++
  le32n (41 + 4 + (kleiStr "MinionResume").length + 4 + c7RolePayload.length) ++
  List.replicate 41 0 ++ le32n 1 ++
  kleiStr "MinionResume" ++ le32n c7RolePayload.length ++ c7RolePayload

/-! C2: a complete save whose decompressed body contains `KSAV` but
declares zero groups. -/

def c2Body : ByteSeq := asciiBytes "KSAV" ++ le32n 7 ++ le32n 30 ++ le32n 0

/-- Placeholder compressed bytes (the oracle stands for `zlib.decompress`
succeeding on this stream). -/
def c2Compressed : ByteSeq := [0x78, 0x9c, 1, 2, 3]

def c2Inflate : Inflate := fun s => if s = c2Compressed then some c2Body else none

def c2Oracle : JsonOracle := fun b =>
  if b = asciiBytes "MJ" then .ok (.obj []) else .error "Expecting value"

def c2File : ByteSeq := le32n 0 ++ le32n 2 ++ le32n 0 ++ asciiBytes "MJ" ++ c2Compressed

/-- A body with one group named `Widget` of 2 instances (for the C2
witness: a readable group yields a non-empty count map). -/
def c2wBody : ByteSeq :=
  asciiBytes "KSAV" ++ le32n 7 ++ le32n 30 ++ le32n 1 ++
  kleiStr "Widget" ++ le32n 2 ++ le32n 0

def c2wInflate : Inflate := fun s => if s = c2Compressed then some c2wBody else none

/-! C5: the canonical zlib encoding of the empty byte string
(`zlib.decompress` of these eight bytes yields `b""`). -/

def emptyZlib : ByteSeq := [0x78, 0x9c, 0x03, 0x00, 0x00, 0x00, 0x00, 0x01]

def c5Inflate : Inflate := fun s => if s = emptyZlib then some [] else none

/-- header_size 8 and header_version 0 place the zlib stream *inside* the
header JSON region: it starts at offset 12 while the scan starts at 20. -/
def c5CexFile : ByteSeq := le32n 0 ++ le32n 8 ++ le32n 0 ++ emptyZlib

/-- header_size 0: the same stream now sits right at the scan start. -/
def c5WitFile : ByteSeq := le32n 0 ++ le32n 0 ++ le32n 0 ++ emptyZlib

/-! ### Generic helper lemmas -/

/-- A substring of `a` is a substring of `a ++ b`. -/
theorem strContains_append_left (a b n : String)
    (h : strContains a n = true) : strContains (a ++ b) n = true := by
  unfold strContains at h ⊢
  simp only [List.any_eq_true, List.mem_range] at h ⊢
  obtain ⟨i, hi, hpre⟩ := h
  have hil : i ≤ a.length := by omega
  have hil' : i ≤ a.data.length := hil
  refine ⟨i, by simp [String.length_append]; omega, ?_⟩
  rw [List.isPrefixOf_iff_prefix] at hpre ⊢
  have hdata : (a ++ b).data = a.data ++ b.data := String.data_append a b
  rw [hdata, List.drop_append_of_le_length hil']
  exact hpre.trans (List.prefix_append _ _)

/-! ### Claim theorems -/

/-- C9: parsing the same byte sequence twice yields identical results for
cycles, duplicant_count and object_group_counts.  The embedded pipeline is
a pure function of the input bytes and the two oracles; the only
nondeterminism in the source (`time.time()` for `parse_time_seconds`, and
logging) never feeds the compared fields, so two runs of
`parseAndExtract` agree on the whole document and in particular on these
three projections. -/
theorem c9_parse_determinism (jsonO : JsonOracle) (inflate : Inflate)
    (bs : ByteSeq) :
    parseAndExtract jsonO inflate bs = parseAndExtract jsonO inflate bs ∧
    (parseAndExtract jsonO inflate bs).map (fun e => e.map
        (fun d => (d.metadata.cycles, d.metadata.duplicantCount,
          d.duplicantsCount, d.objectGroupCounts))) =
      (parseAndExtract jsonO inflate bs).map (fun e => e.map
        (fun d => (d.metadata.cycles, d.metadata.duplicantCount,
          d.duplicantsCount, d.objectGroupCounts))) :=
  ⟨rfl, rfl⟩

/-- C6 counterexample: on the exact sixteen-byte buffer
`"KSAV" + major + minor + group_count=1`, `KSAVGroupCounter.summarize`
returns group_count = 1 — the header's declared count — not the claimed
zeroed summary. -/
theorem c6_counterexample :
    summarize c6Buf = some { groupCount := 1, totalInstances := 0 } ∧
    (1 : Int) ≠ 0 := by
  constructor
  · decide
  · decide

/-- C6 amended: on that buffer `summarize` raises no exception and
returns `group_count = 1` (the declared count read from the header) with
`total_instances = 0` (the group table walk reads nothing). -/
theorem c6_amended_summary :
    summarize c6Buf = some { groupCount := 1, totalInstances := 0 } := by
  decide

/-- C1: whenever the parsed header JSON reports a `saveMajorVersion`
different from 7, `parse_save_file` fails: success is false, no SaveGame
is attached, and the error message is the `ValueError` text of
`_validate_version`, which mentions the unsupported version. -/
theorem c1_unsupported_major_fails (jsonO : JsonOracle) (inflate : Inflate)
    (bs : ByteSeq) (hdr : HeaderInfo) (pos : Nat) (v : Json)
    (hparse : parseHeader jsonO bs = .ok (hdr, pos))
    (hmaj : jsonGet hdr.gameInfo "saveMajorVersion" = some v)
    (hne : jsonEqInt v 7 = false) :
    (parseSaveFile jsonO inflate bs).success = false ∧
    (parseSaveFile jsonO inflate bs).saveGame = none ∧
    (parseSaveFile jsonO inflate bs).errorMessage =
      "Unsupported major version " ++ pyStr v ++ ". Expected 7" ∧
    strContains (parseSaveFile jsonO inflate bs).errorMessage "version" = true := by
  have hres : parseSaveFile jsonO inflate bs =
      { errorMessage := "Unsupported major version " ++ pyStr v ++ ". Expected 7" } := by
    unfold parseSaveFile
    rw [hparse]
    simp only [hmaj, Option.getD_some, validateVersion, hne, Bool.false_eq_true,
      not_false_iff, if_true]
  refine ⟨by rw [hres], by rw [hres], by rw [hres], ?_⟩
  rw [hres]
  show strContains (("Unsupported major version " ++ pyStr v) ++ ". Expected 7")
    "version" = true
  apply strContains_append_left
  apply strContains_append_left
  decide

/-- The header produced by parsing `c1File` with `c1Oracle`. -/
def c1Hdr : HeaderInfo :=
  { gameInfo := [("saveMajorVersion", .num 5), ("buildVersion", .num 0),
                 ("headerVersion", .num 0), ("isCompressed", .bool false)]
    clusterId := .str ""
    numCycles := .num 0
    numDuplicants := .num 0 }

/-- C1 witness: the concrete major-5 input indeed fails with the
version error. -/
theorem c1_witness :
    (parseSaveFile c1Oracle noInflate c1File).success = false ∧
    (parseSaveFile c1Oracle noInflate c1File).saveGame = none ∧
    (parseSaveFile c1Oracle noInflate c1File).errorMessage =
      "Unsupported major version " ++ pyStr (.num 5) ++ ". Expected 7" ∧
    strContains (parseSaveFile c1Oracle noInflate c1File).errorMessage
      "version" = true :=
  c1_unsupported_major_fails c1Oracle noInflate c1File c1Hdr 14 (.num 5)
    (by rfl) (by rfl) (by rfl)

/-- C4 counterexample: the concrete input whose header reports
`saveMinorVersion = 50` (outside [11, 36]) parses with success, yet no
entry of `ParseResult.warnings` contains "version": `_validate_version`
only sends the advisory to `self.logger.warning`, never to
`ParseResult.add_warning`. -/
theorem c4_counterexample :
    (parseSaveFile c4Oracle noInflate c4File).success = true ∧
    ((parseSaveFile c4Oracle noInflate c4File).saveGame.map
      (fun sg => jsonEqInt sg.version.minor 50)) = some true ∧
    ¬((11 : Int) ≤ 50 ∧ (50 : Int) ≤ 36) ∧
    (parseSaveFile c4Oracle noInflate c4File).warnings.all
      (fun w => !(strContains w "version")) = true := by
  refine ⟨by decide, by decide, by decide, by decide⟩

/-- The templates stage emits nothing or its fixed message. -/
theorem parseTemplatesWarnings_cases (bs : ByteSeq) (pos : Nat) :
    parseTemplatesWarnings bs pos = [] ∨
    parseTemplatesWarnings bs pos =
      ["Type templates parsing minimal: names not detected"] := by
  unfold parseTemplatesWarnings
  dsimp only
  split
  · right; rfl
  · left; rfl

/-- The world stage emits its fixed message or an `int()` error wrapped
in the fixed prefix. -/
theorem parseWorld_snd_cases (bs : ByteSeq) (pos : Nat)
    (gi : List (String × Json)) :
    (parseWorld bs pos gi).2 = ["World data preserved as binary (not parsed)"] ∨
    ∃ e, (parseWorld bs pos gi).2 = ["World parsing error: " ++ e] := by
  unfold parseWorld
  dsimp only
  split
  · right; exact ⟨_, rfl⟩
  · split
    · right; exact ⟨_, rfl⟩
    · left; rfl

/-- "World parsing error: …" never starts with "Minor version ". -/
theorem worldErr_not_minor_prefix (e : String) :
    pyStartsWith ("World parsing error: " ++ e) "Minor version " = false := by
  unfold pyStartsWith
  rw [String.data_append]
  show List.isPrefixOf ('M' :: "inor version ".data)
    (('W' :: "orld parsing error: ".data) ++ e.data) = false
  simp [List.isPrefixOf]

/-- Projections of a successful parse: success flag, the warning list
assembled from the template/world/stub stages, the attached SaveGame, and
the object-group entity. -/
theorem parseSaveFile_ok_projections (jsonO : JsonOracle) (inflate : Inflate)
    (bs : ByteSeq) (hdr : HeaderInfo) (pos : Nat)
    (hh : parseHeader jsonO bs = .ok (hdr, pos))
    (hv : validateVersion
        { major := (jsonGet hdr.gameInfo "saveMajorVersion").getD (.num 7)
          minor := (jsonGet hdr.gameInfo "saveMinorVersion").getD (.num 36) } =
      .ok ()) :
    (parseSaveFile jsonO inflate bs).success = true ∧
    (parseSaveFile jsonO inflate bs).warnings =
      parseTemplatesWarnings bs pos ++ (parseWorld bs pos hdr.gameInfo).2 ++
        stubSectionWarnings ∧
    (parseSaveFile jsonO inflate bs).saveGame = some
      { header := hdr
        version :=
          { major := (jsonGet hdr.gameInfo "saveMajorVersion").getD (.num 7)
            minor := (jsonGet hdr.gameInfo "saveMinorVersion").getD (.num 36) }
        world := (parseWorld bs pos hdr.gameInfo).1 } ∧
    (parseSaveFile jsonO inflate bs).entities.objectGroupCounts =
      some (objectGroupCountsEntity inflate bs) ∧
    (parseSaveFile jsonO inflate bs).entities.duplicants =
      (match decompressBodyBlock inflate bs with
       | some b => extractMinionDetailsFromBody b
       | none => []) := by
  unfold parseSaveFile
  rw [hh]
  dsimp only
  rw [hv]
  rcases hpw : parseWorld bs pos hdr.gameInfo with ⟨world, wW⟩
  simp [hpw]

/-- C4 amended: an input that parses successfully with a minor version
outside [11, 36] still has success = true, and no entry of
`ParseResult.warnings` is (or even starts like) the minor-version advisory
"Minor version … may not be fully supported…": `_validate_version`
routes it to the logger only, so the promised "version" warning is never
in the result. -/
theorem c4_amended_version_warning_only (jsonO : JsonOracle)
    (inflate : Inflate) (bs : ByteSeq) (m : Int)
    (hminor : (parseSaveFile jsonO inflate bs).saveGame.map
        (fun sg => sg.version.minor) = some (.num m))
    (_hout : ¬(11 ≤ m ∧ m ≤ 36)) :
    (parseSaveFile jsonO inflate bs).success = true ∧
    ∀ w ∈ (parseSaveFile jsonO inflate bs).warnings,
      pyStartsWith w "Minor version " = false := by
  cases hh : parseHeader jsonO bs with
  | error e =>
    have hr : parseSaveFile jsonO inflate bs =
        { errorMessage := e, warnings := ["Header parsing error: " ++ e] } := by
      unfold parseSaveFile; rw [hh]
    rw [hr] at hminor
    simp at hminor
  | ok hp =>
    obtain ⟨hdr, pos⟩ := hp
    cases hv : validateVersion
        { major := (jsonGet hdr.gameInfo "saveMajorVersion").getD (.num 7)
          minor := (jsonGet hdr.gameInfo "saveMinorVersion").getD (.num 36) } with
    | error e2 =>
      have hr : parseSaveFile jsonO inflate bs = { errorMessage := e2 } := by
        unfold parseSaveFile; rw [hh]; dsimp only; rw [hv]
      rw [hr] at hminor
      simp at hminor
    | ok u =>
      cases u
      obtain ⟨hs, hw, -, -, -⟩ :=
        parseSaveFile_ok_projections jsonO inflate bs hdr pos hh hv
      refine ⟨hs, ?_⟩
      intro w hw'
      rw [hw] at hw'
      rcases List.mem_append.mp hw' with h1 | h2
      · rcases List.mem_append.mp h1 with ht | hwd
        · rcases parseTemplatesWarnings_cases bs pos with he | he <;> rw [he] at ht
          · simp at ht
          · simp at ht
            subst ht
            decide
        · rcases parseWorld_snd_cases bs pos hdr.gameInfo with he | ⟨e, he⟩ <;>
            rw [he] at hwd
          · simp at hwd
            subst hwd
            decide
          · simp at hwd
            subst hwd
            exact worldErr_not_minor_prefix e
      · simp [stubSectionWarnings] at h2
        rcases h2 with rfl | rfl | rfl | rfl <;> decide

/-- C4 witness: the concrete minor-50 input. -/
theorem c4_witness :
    (parseSaveFile c4Oracle noInflate c4File).success = true ∧
    ∀ w ∈ (parseSaveFile c4Oracle noInflate c4File).warnings,
      pyStartsWith w "Minor version " = false :=
  c4_amended_version_warning_only c4Oracle noInflate c4File 50 (by rfl)
    (by decide)

/-- `int(num or 0)` on an integer JSON value is that integer. -/
theorem pyToInt_pyOrJson_num (c : Int) :
    pyToInt (pyOrJson (.num c) (.num 0)) = .ok c := by
  by_cases c0 : c = 0 <;> simp [pyOrJson, pyTruthy, pyToInt, c0]

/-- C10: in the contract document, `duplicants.count` is the header's
`num_duplicants` whenever that value is a non-zero integer, and the
length of the decoded list only when it is zero — so the count can differ
from `len(duplicants.list)` (the witness shows count 3 with an empty
list). -/
theorem c10_duplicants_count_source (save : SaveGameM) (entities : Entities)
    (n c : Int)
    (hdup : save.header.numDuplicants = .num n)
    (hcyc : save.header.numCycles = .num c) :
    ∃ doc, extract save entities = .ok doc ∧
      doc.duplicantsCount =
        (if n ≠ 0 then n else (entities.duplicants.length : Int)) ∧
      doc.duplicantsList.length = entities.duplicants.length := by
  unfold extract
  rw [hdup, hcyc]
  simp only [pyToInt_pyOrJson_num]
  by_cases hn : n = 0 <;>
    simp [pyTruthy, pyToInt, hn, Except.bind, bind, pure, Except.pure]

/-- A header reporting three duplicants with nothing decoded. -/
def c10Save : SaveGameM :=
  { header := { gameInfo := [], clusterId := .str "", numCycles := .num 0
                numDuplicants := .num 3 }
    version := { major := .num 7, minor := .num 36 }
    world := { widthInCells := 0, heightInCells := 0 } }

/-- C10 witness: header count 3 with an empty decoded list gives
`duplicants.count = 3` while `len(duplicants.list) = 0`. -/
theorem c10_witness :
    ∃ doc, extract c10Save {} = .ok doc ∧
      doc.duplicantsCount = 3 ∧ doc.duplicantsList.length = 0 := by
  obtain ⟨doc, h1, h2, h3⟩ :=
    c10_duplicants_count_source c10Save {} 3 0 (by rfl) (by rfl)
  refine ⟨doc, h1, ?_, ?_⟩
  · simpa using h2
  · simpa using h3

/-- C2 counterexample: a complete major-7 save whose decompressed body
contains the KSAV marker but declares zero groups parses with success and
an *empty* `object_group_counts` section — the claimed non-emptiness
fails. -/
theorem c2_counterexample :
    (parseSaveFile c2Oracle c2Inflate c2File).success = true ∧
    decompressBodyBlock c2Inflate c2File = some c2Body ∧
    pyFind c2Body (asciiBytes "KSAV") ≠ -1 ∧
    ((parseSaveFile c2Oracle c2Inflate c2File).saveGame.map
      (fun sg => jsonEqInt sg.version.major 7)) = some true ∧
    (parseAndExtract c2Oracle c2Inflate c2File).map
        (fun e => e.map (fun d => d.objectGroupCounts)) = some (.ok []) := by
  refine ⟨by decide, by decide, by decide, by decide, by decide⟩

/-- The extractor succeeds on integral header counts, and its
`object_group_counts` section is exactly the entity map. -/
theorem extract_ok_ogc (save : SaveGameM) (entities : Entities) (n c : Int)
    (hdup : save.header.numDuplicants = .num n)
    (hcyc : save.header.numCycles = .num c) :
    ∃ doc, extract save entities = .ok doc ∧
      doc.objectGroupCounts = entities.objectGroupCounts.getD [] := by
  unfold extract
  rw [hdup, hcyc]
  simp only [pyToInt_pyOrJson_num]
  by_cases hn : n = 0 <;>
    simp [pyTruthy, pyToInt, hn, Except.bind, bind, pure, Except.pure]

/-- C2 amended: for every save that parses successfully (valid header,
major 7) and whose body decompresses, the contract document's
`object_group_counts` section equals the KSAV group walk of that body —
which is non-empty exactly when the walk records at least one group, and
empty for a marker-bearing body declaring zero groups (see the
counterexample).  Success itself never depends on the body. -/
theorem c2_amended_group_counts (jsonO : JsonOracle) (inflate : Inflate)
    (bs : ByteSeq) (hdr : HeaderInfo) (pos : Nat) (body : ByteSeq) (n c : Int)
    (hh : parseHeader jsonO bs = .ok (hdr, pos))
    (hv : validateVersion
        { major := (jsonGet hdr.gameInfo "saveMajorVersion").getD (.num 7)
          minor := (jsonGet hdr.gameInfo "saveMinorVersion").getD (.num 36) } =
      .ok ())
    (hbody : decompressBodyBlock inflate bs = some body)
    (hcyc : hdr.numCycles = .num c) (hdup : hdr.numDuplicants = .num n) :
    (parseSaveFile jsonO inflate bs).success = true ∧
    (parseSaveFile jsonO inflate bs).entities.objectGroupCounts =
      some (extractObjectGroupCounts body) ∧
    ∃ doc, parseAndExtract jsonO inflate bs = some (.ok doc) ∧
      doc.objectGroupCounts = extractObjectGroupCounts body := by
  obtain ⟨hs, -, hsg, hogc, -⟩ :=
    parseSaveFile_ok_projections jsonO inflate bs hdr pos hh hv
  have hent : objectGroupCountsEntity inflate bs = extractObjectGroupCounts body := by
    unfold objectGroupCountsEntity
    rw [hbody]
    rfl
  refine ⟨hs, by rw [hogc, hent], ?_⟩
  obtain ⟨doc, hdoc, hdocogc⟩ :=
    extract_ok_ogc
      { header := hdr
        version :=
          { major := (jsonGet hdr.gameInfo "saveMajorVersion").getD (.num 7)
            minor := (jsonGet hdr.gameInfo "saveMinorVersion").getD (.num 36) }
        world := (parseWorld bs pos hdr.gameInfo).1 }
      (parseSaveFile jsonO inflate bs).entities n c hdup hcyc
  refine ⟨doc, ?_, ?_⟩
  · unfold parseAndExtract
    dsimp only
    rw [hsg]
    dsimp only
    rw [hdoc]
  · rw [hdocogc, hogc, hent]
    rfl

/-- The header produced by parsing `c2File` with `c2Oracle` (empty JSON
object, counts defaulting to zero). -/
def c2Hdr : HeaderInfo :=
  { gameInfo := [("buildVersion", .num 0), ("headerVersion", .num 0),
                 ("isCompressed", .bool false)]
    clusterId := .str ""
    numCycles := .num 0
    numDuplicants := .num 0 }

/-- C2 witness: on a body declaring one `Widget` group of two instances,
the pipeline succeeds and the section is the (non-empty) walk result. -/
theorem c2_witness :
    ((parseSaveFile c2Oracle c2wInflate c2File).success = true ∧
     (parseSaveFile c2Oracle c2wInflate c2File).entities.objectGroupCounts =
       some (extractObjectGroupCounts c2wBody) ∧
     ∃ doc, parseAndExtract c2Oracle c2wInflate c2File = some (.ok doc) ∧
       doc.objectGroupCounts = extractObjectGroupCounts c2wBody) ∧
    extractObjectGroupCounts c2wBody = [("Widget", 2)] := by
  constructor
  · exact c2_amended_group_counts c2Oracle c2wInflate c2File c2Hdr 14 c2wBody
      0 0 (by rfl) (by rfl) (by rfl) (by rfl) (by rfl)
  · decide

/-- C5 counterexample: in `c5CexFile` a zlib signature sits at offset 12,
inside the header JSON region (the scan starts at 20), and its suffix
inflates — yet `MetadataBuilder.build` records no block at all: the scan
covers only `file_bytes[start_after_header:]`, not the entire raw file. -/
theorem c5_counterexample :
    c5Inflate (c5CexFile.drop 12) = some [] ∧
    List.isPrefixOf [0x78, 0x9c] (c5CexFile.drop 12) = true ∧
    (parseHeaderRaw c5CexFile).1 = 20 ∧
    (metadataBuild c5Inflate c5CexFile none).map (fun m => m.blocks) =
      some [] := by
  refine ⟨by decide, by decide, by decide, by decide⟩

/-- Blocks already recorded survive the rest of the scan fold. -/
theorem metadataScanStep_fold_mono (inflate : Inflate) (bs : ByteSeq)
    (l : List Nat) (st : List Nat × List SaveBlockInfo) (b : SaveBlockInfo)
    (hb : b ∈ st.2) :
    b ∈ (l.foldl (metadataScanStep inflate bs) st).2 := by
  induction l generalizing st with
  | nil => exact hb
  | cons q qs ih =>
    rw [List.foldl_cons]
    apply ih
    unfold metadataScanStep
    split
    · exact hb
    · split
      · exact List.mem_append_left _ hb
      · exact hb

/-- An unseen visited position whose suffix inflates gets its block
recorded by the scan fold. -/
theorem metadataScanStep_fold_records (inflate : Inflate) (bs : ByteSeq)
    (l : List Nat) (pos : Nat) (b : SaveBlockInfo)
    (st : List Nat × List SaveBlockInfo)
    (hpos : pos ∈ l) (hseen : pos ∉ st.1)
    (hmk : mkBlock? inflate bs pos = some b) :
    b ∈ (l.foldl (metadataScanStep inflate bs) st).2 := by
  induction l generalizing st with
  | nil => cases hpos
  | cons q qs ih =>
    rw [List.foldl_cons]
    rcases List.mem_cons.mp hpos with heq | hq
    · subst heq
      have hstep : metadataScanStep inflate bs st pos = (pos :: st.1, st.2 ++ [b]) := by
        unfold metadataScanStep
        rw [if_neg (by simpa using hseen), hmk]
      rw [hstep]
      exact metadataScanStep_fold_mono inflate bs qs _ b
        (List.mem_append_right _ (List.mem_singleton.mpr rfl))
    · by_cases hq0 : pos = q
      · subst hq0
        have hstep : metadataScanStep inflate bs st pos = (pos :: st.1, st.2 ++ [b]) := by
          unfold metadataScanStep
          rw [if_neg (by simpa using hseen), hmk]
        rw [hstep]
        exact metadataScanStep_fold_mono inflate bs qs _ b
          (List.mem_append_right _ (List.mem_singleton.mpr rfl))
      · refine ih _ hq ?_
        unfold metadataScanStep
        split
        · exact hseen
        · split <;>
          · intro hc
            rcases List.mem_cons.mp hc with h1 | h2
            · exact hq0 h1
            · exact hseen h2

/-- C5 amended: the diagnostics scan covers only the region from
`start_after_header` on.  Within that region it behaves as the claim
says: every position at or after the header end that carries a zlib
signature and whose suffix inflates gets exactly the claimed
SaveBlockInfo (offset, 10-byte hex preview, compressed size to file end,
decompressed size, CRC32 of the decompressed bytes).  Occurrences before
`start_after_header` are never recorded (see the counterexample). -/
theorem c5_amended_post_header_blocks (inflate : Inflate) (bs : ByteSeq)
    (pos : Nat) (sig d : ByteSeq) (st : SaveGameMetadata)
    (hsig : sig ∈ zlibSigs)
    (hpos : (parseHeaderRaw bs).1 ≤ pos)
    (hmatch : List.isPrefixOf sig (bs.drop pos) = true)
    (hinf : inflate (bs.drop pos) = some d)
    (hbuild : metadataBuild inflate bs none = some st) :
    ∃ b ∈ st.blocks,
      b.offset = pos ∧
      b.header = hexOfBytes ((bs.drop pos).take 10) ∧
      b.compressedSize = bs.length - pos ∧
      b.decompressedSize = d.length ∧
      b.crc32 = hex8 (crc32 d) := by
  have hsig_ne : sig ≠ [] := by
    simp only [zlibSigs, List.mem_cons, List.not_mem_nil, or_false] at hsig
    rcases hsig with rfl | rfl | rfl <;> simp
  have hdrop_ne : bs.drop pos ≠ [] := by
    intro h0
    rw [h0] at hmatch
    rcases sig with _ | ⟨x, xs⟩
    · exact hsig_ne rfl
    · simp [List.isPrefixOf] at hmatch
  have hposlt : pos < bs.length := by
    by_contra hge
    push_neg at hge
    exact hdrop_ne (List.drop_eq_nil_of_le hge)
  have hbs_ne : bs ≠ [] := by
    intro h0
    subst h0
    simp at hposlt
  have hmk : mkBlock? inflate bs pos = some
      { offset := pos
        header := hexOfBytes ((bs.drop pos).take 10)
        compressedSize := bs.length - pos
        decompressedSize := d.length
        crc32 := hex8 (crc32 d) } := by
    unfold mkBlock?
    rw [hinf]
  have hblocks : st.blocks = metadataScan inflate bs (parseHeaderRaw bs).1 := by
    unfold metadataBuild at hbuild
    rw [if_neg hbs_ne] at hbuild
    dsimp only at hbuild
    split at hbuild
    · rcases Option.map_eq_some'.mp hbuild with ⟨s, hsum, hst⟩
      rw [← hst]
    · cases hbuild
      rfl
  have hfind : (pos - (parseHeaderRaw bs).1) ∈
      findAll (bs.drop (parseHeaderRaw bs).1) sig := by
    unfold findAll
    apply List.mem_filter.mpr
    refine ⟨List.mem_range.mpr ?_, ?_⟩
    · have hlen : (bs.drop (parseHeaderRaw bs).1).length =
          bs.length - (parseHeaderRaw bs).1 := List.length_drop _ _
      omega
    · have hdd : (bs.drop (parseHeaderRaw bs).1).drop (pos - (parseHeaderRaw bs).1) =
          bs.drop pos := by
        rw [List.drop_drop]
        congr 1
        omega
      rw [hdd]
      exact hmatch
  have hvisit : pos ∈ (zlibSigs.map
      (fun sg => (findAll (bs.drop (parseHeaderRaw bs).1) sg).map
        (· + (parseHeaderRaw bs).1))).flatten := by
    apply List.mem_flatten.mpr
    refine ⟨(findAll (bs.drop (parseHeaderRaw bs).1) sig).map
      (· + (parseHeaderRaw bs).1), List.mem_map_of_mem _ hsig, ?_⟩
    apply List.mem_map.mpr
    exact ⟨pos - (parseHeaderRaw bs).1, hfind, by omega⟩
  rw [hblocks]
  unfold metadataScan
  dsimp only
  exact ⟨_, metadataScanStep_fold_records inflate bs _ pos _ ([], []) hvisit
    (by simp) hmk, rfl, rfl, rfl, rfl, rfl⟩

/-- The single diagnostics block of `c5WitFile`. -/
def c5WitBlock : SaveBlockInfo :=
  { offset := 12, header := "789c030000000001", compressedSize := 8
    decompressedSize := 0, crc32 := "00000000" }

/-- C5 witness: with the empty zlib stream right after the header, the
builder records exactly the claimed block. -/
theorem c5_witness :
    ∃ b ∈ (⟨[c5WitBlock], ⟨0, 0⟩⟩ : SaveGameMetadata).blocks,
      b.offset = 12 ∧
      b.header = hexOfBytes ((c5WitFile.drop 12).take 10) ∧
      b.compressedSize = c5WitFile.length - 12 ∧
      b.decompressedSize = ([] : ByteSeq).length ∧
      b.crc32 = hex8 (crc32 []) :=
  c5_amended_post_header_blocks c5Inflate c5WitFile 12 [0x78, 0x9c] []
    ⟨[c5WitBlock], ⟨0, 0⟩⟩ (by decide) (by decide) (by decide) (by rfl)
    (by decide)

set_option maxRecDepth 100000 in
/-- C3 counterexample: the structured `AptitudeBySkillGroup` parse accepts
level 10 for Mining, although the fixed table caps Mining at tier 3 — the
per-group maximum is never applied to the structured pass, so an
out-of-range level appears in the decoded output. -/
theorem c3_counterexample :
    (extractMinionDetailsFromBody c3Body).map (fun m => m.aptitudes) =
      [[("Mining", 10)]] ∧
    maxLevelTable.lookup "Mining" = some 3 ∧
    ¬((10 : Int) ≤ 3) := by
  refine ⟨by decide, by decide, by decide⟩

/-- All recorded aptitude levels lie in [1, 10]. -/
def aptInRange (l : List (String × Int)) : Prop :=
  ∀ p ∈ l, 1 ≤ p.2 ∧ p.2 ≤ 10

/-- Rounding keeps [0, 10]. -/
theorem roundHalfEven_bounds (q : ℚ) (h0 : 0 ≤ q) (h10 : q ≤ 10) :
    0 ≤ roundHalfEven q ∧ roundHalfEven q ≤ 10 := by
  have hf0 : 0 ≤ ⌊q⌋ := Int.floor_nonneg.mpr h0
  have hf10 : ⌊q⌋ ≤ 10 := by
    have := Int.floor_le_floor h10
    simpa using this
  have hfle : (⌊q⌋ : ℚ) ≤ q := Int.floor_le q
  have key : (1 : ℚ) / 2 ≤ q - ⌊q⌋ → 0 ≤ ⌊q⌋ + 1 ∧ ⌊q⌋ + 1 ≤ 10 := by
    intro hge
    refine ⟨by omega, ?_⟩
    by_contra hc
    push_neg at hc
    have h10' : (10 : ℚ) ≤ (⌊q⌋ : ℚ) := by exact_mod_cast (by omega : (10 : ℤ) ≤ ⌊q⌋)
    linarith
  unfold roundHalfEven
  dsimp only
  split
  · exact ⟨hf0, hf10⟩
  · split
    · rename_i hlt hgt
      exact key (le_of_lt hgt)
    · split
      · exact ⟨hf0, hf10⟩
      · rename_i hlt hgt hodd
        push_neg at hlt
        exact key hlt

/-- Any level produced by the int32 attempt lies in [0, 10]. -/
theorem readAptLevelInt_bounds (pay : ByteSeq) (rp2 : Nat) (lvl : Int)
    (rp3 : Nat) (h : readAptLevelInt pay rp2 = some (lvl, rp3)) :
    0 ≤ lvl ∧ lvl ≤ 10 := by
  unfold readAptLevelInt at h
  split at h
  · split at h
    · split at h
      · rename_i hcand
        simp only [Option.some.injEq, Prod.mk.injEq] at h
        omega
      · exact absurd h (by simp)
    · exact absurd h (by simp)
  · exact absurd h (by simp)

/-- Any level produced by the float32 fallback lies in [0, 10]. -/
theorem readAptLevelFloat_bounds (pay : ByteSeq) (rp2 : Nat) (lvl : Int)
    (rp3 : Nat) (h : readAptLevelFloat pay rp2 = some (lvl, rp3)) :
    0 ≤ lvl ∧ lvl ≤ 10 := by
  unfold readAptLevelFloat at h
  split at h
  · split at h
    · split at h
      · rename_i fv hread hfv
        simp only [Option.some.injEq, Prod.mk.injEq] at h
        obtain ⟨hl, -⟩ := h
        subst hl
        exact roundHalfEven_bounds fv hfv.1 hfv.2
      · exact absurd h (by simp)
    · exact absurd h (by simp)
  · exact absurd h (by simp)

/-- Any level produced by `readAptLevel` lies in [0, 10]. -/
theorem readAptLevel_bounds (pay : ByteSeq) (rp2 : Nat) (lvl : Int) (rp3 : Nat)
    (h : readAptLevel pay rp2 = some (lvl, rp3)) : 0 ≤ lvl ∧ lvl ≤ 10 := by
  unfold readAptLevel at h
  split at h
  · rename_i r hr
    cases h
    exact readAptLevelInt_bounds pay rp2 lvl rp3 hr
  · exact readAptLevelFloat_bounds pay rp2 lvl rp3 h

/-- Membership after a Python dict assignment. -/
theorem mem_dictSet {α : Type} (l : List (String × α)) (k : String) (v : α)
    (p : String × α) (hp : p ∈ dictSet l k v) : p ∈ l ∨ p = (k, v) := by
  unfold dictSet at hp
  split at hp
  · rcases List.mem_map.mp hp with ⟨q, hq, hpq⟩
    by_cases hqk : q.1 = k
    · right
      simp [hqk] at hpq
      exact hpq.symm
    · left
      simp [hqk] at hpq
      exact hpq ▸ hq
  · rcases List.mem_append.mp hp with h1 | h2
    · exact Or.inl h1
    · right
      simpa using h2

/-- `aptitudes.get(g, 0)` is nonnegative on an in-range table. -/
theorem dictGetInt_nonneg (l : List (String × Int)) (k : String)
    (h : aptInRange l) : 0 ≤ dictGetInt l k := by
  unfold dictGetInt
  cases hf : l.find? (fun p => p.1 = k) with
  | none => simp
  | some q =>
    have := h q (List.mem_of_find?_eq_some hf)
    simp
    omega

/-- The aptitude entry loop keeps every recorded level in [1, 10]. -/
theorem parseAptitudesGo_inRange (pay : ByteSeq) (n : Nat) :
    ∀ (rp : Nat) (apt : List (String × Int)), aptInRange apt →
      aptInRange (parseAptitudesGo pay n rp apt) := by
  induction n with
  | zero => intro rp apt h; exact h
  | succ n ih =>
    intro rp apt h
    unfold parseAptitudesGo
    split
    · exact h
    · split
      · exact h
      · dsimp only
        split
        · exact h
        · split
          · exact ih _ _ h
          · rename_i lvl rp3 heq
            apply ih
            obtain ⟨h0, h10⟩ := readAptLevel_bounds pay _ lvl rp3 heq
            split
            · split
              · rename_i hgk hgt
                intro p hpm
                rcases mem_dictSet _ _ _ p hpm with hin | rfl
                · exact h p hin
                · have h1lvl : 0 < lvl :=
                    lt_of_le_of_lt (dictGetInt_nonneg apt _ h) hgt
                  exact ⟨by omega, by omega⟩
              · exact h
            · exact h

/-- The walk invariant: recorded aptitude levels lie in [1, 10]
(established by `readAptLevel` plus the `lvl > prev` guard) and a decoded
job is never the empty string (every assignment is truthiness-guarded). -/
def minionInv (mi : MinionAcc) : Prop :=
  aptInRange mi.aptitudes ∧ mi.job? ≠ some ""

/-- The resume-level invariant. -/
def resumeInv (r : ResumeInfo) : Prop :=
  aptInRange r.aptitudes ∧ r.currentRole? ≠ some ""

/-- An embedded key/value string is never empty (`if s:` guard). -/
theorem embeddedString?_ne_empty (bs : ByteSeq) (q2 : Nat) (kvLen : Int)
    (s : String) (h : embeddedString? bs q2 kvLen = some s) : s ≠ "" := by
  unfold embeddedString? at h
  dsimp only at h
  split at h
  · split at h
    · split at h
      · split at h
        · rename_i hne
          cases h
          exact hne
        · exact absurd h (by simp)
      · exact absurd h (by simp)
    · exact absurd h (by simp)
  · exact absurd h (by simp)

/-- `resumeKeyStep` preserves the resume invariant. -/
theorem resumeKeyStep_inv (bs : ByteSeq) (key : String) (q2 : Nat)
    (kvLen : Int) (st : ResumeInfo) (h : resumeInv st) :
    resumeInv (resumeKeyStep bs key q2 kvLen st) := by
  obtain ⟨ha, hc⟩ := h
  unfold resumeKeyStep
  dsimp only
  split
  · cases hemb : embeddedString? bs q2 kvLen with
    | none => exact ⟨ha, hc⟩
    | some s =>
      refine ⟨ha, ?_⟩
      simp only [ne_eq, Option.some.injEq]
      exact embeddedString?_ne_empty bs q2 kvLen s hemb
  · split
    · split
      · split
        · exact ⟨parseAptitudesGo_inRange _ _ _ _ ha, hc⟩
        · exact ⟨ha, hc⟩
      · exact ⟨ha, hc⟩
    · split
      · split
        · split
          · split
            · exact ⟨ha, hc⟩
            · exact ⟨ha, hc⟩
          · exact ⟨ha, hc⟩
        · exact ⟨ha, hc⟩
      · exact ⟨ha, hc⟩

/-- The resume key/value loop preserves the resume invariant. -/
theorem parseMinionResumeGo_inv (bs : ByteSeq) (bend : Nat) (fuel : Nat) :
    ∀ (q : Nat) (st : ResumeInfo), resumeInv st →
      resumeInv (parseMinionResumeGo bs bend fuel q st) := by
  induction fuel with
  | zero => intro q st h; exact h
  | succ n ih =>
    intro q st h
    unfold parseMinionResumeGo
    split
    · split
      · exact ih _ _ h
      · split
        · exact h
        · split
          · exact h
          · dsimp only
            split
            · exact ih _ _ h
            · exact ih _ _ (resumeKeyStep_inv _ _ _ _ _ h)
    · exact h

/-- `_parse_minion_resume` satisfies the resume invariant. -/
theorem parseMinionResume_inv (bs : ByteSeq) (bstart bend : Nat) :
    resumeInv (parseMinionResume bs bstart bend) :=
  parseMinionResumeGo_inv bs bend (bend + 1) bstart {}
    ⟨fun _ hp => absurd hp (List.not_mem_nil _), by simp⟩

/-- The identity branch touches only name/gender/arrival. -/
theorem behaviorIdentity_inv (bs : ByteSeq) (s e : Nat) (mi : MinionAcc)
    (h : minionInv mi) : minionInv (behaviorIdentity bs s e mi) := by
  obtain ⟨ha, hj⟩ := h
  unfold behaviorIdentity
  dsimp only
  split <;> split <;> split <;> exact ⟨ha, hj⟩

/-- The resume branch preserves the invariant: a transferred role comes
from a non-empty `currentRole`, transferred aptitudes satisfy the resume
invariant. -/
theorem behaviorResume_inv (bs : ByteSeq) (s e : Nat) (mi : MinionAcc)
    (h : minionInv mi) : minionInv (behaviorResume bs s e mi) := by
  obtain ⟨ha, hj⟩ := h
  have hres := parseMinionResume_inv bs s e
  unfold behaviorResume
  rcases hr : parseMinionResume bs s e with ⟨cur, apts, mast⟩
  rw [hr] at hres
  obtain ⟨hra, hrc⟩ := hres
  dsimp only at hra hrc
  rcases cur with _ | r
  · dsimp only
    rcases mast with _ | ms <;> dsimp only <;> repeat' split
    all_goals first
      | exact ⟨hra, hj⟩
      | exact ⟨ha, hj⟩
  · have hrne : r ≠ "" := by
      intro he
      exact hrc (by rw [he])
    dsimp only
    rcases mast with _ | ms <;> dsimp only <;> repeat' split
    all_goals first
      | exact ⟨hra, hj⟩
      | exact ⟨ha, hj⟩
      | exact ⟨hra, by simp [hrne]⟩
      | exact ⟨ha, by simp [hrne]⟩

/-- The traits branch touches only `traits?`. -/
theorem behaviorTraits_inv (bs : ByteSeq) (s e : Nat) (mi : MinionAcc)
    (h : minionInv mi) : minionInv (behaviorTraits bs s e mi) := by
  obtain ⟨ha, hj⟩ := h
  unfold behaviorTraits
  dsimp only
  repeat' split
  all_goals exact ⟨ha, hj⟩

/-- The effects branch touches only `effects?`. -/
theorem behaviorEffects_inv (bs : ByteSeq) (s e : Nat) (mi : MinionAcc)
    (h : minionInv mi) : minionInv (behaviorEffects bs s e mi) := by
  obtain ⟨ha, hj⟩ := h
  unfold behaviorEffects
  dsimp only
  repeat' split
  all_goals exact ⟨ha, hj⟩

/-- The modifiers branch touches only `vitals`. -/
theorem behaviorModifiers_inv (bs : ByteSeq) (s e : Nat) (mi : MinionAcc)
    (h : minionInv mi) : minionInv (behaviorModifiers bs s e mi) := by
  obtain ⟨ha, hj⟩ := h
  unfold behaviorModifiers
  dsimp only
  split
  · exact ⟨ha, hj⟩
  · exact ⟨ha, hj⟩

/-- A hat token that survives the `if mapped:` filter is non-empty. -/
theorem hat_findSome_ne (l : List String) (mapped : String)
    (h : l.findSome? (fun t =>
        let m := mapHatToRole t
        if m ≠ "" then some m else none) = some mapped) :
    mapped ≠ "" := by
  induction l with
  | nil => simp [List.findSome?] at h
  | cons x xs ih =>
    rw [List.findSome?_cons] at h
    dsimp only at h
    by_cases hm : mapHatToRole x ≠ ""
    · rw [if_pos hm] at h
      dsimp only at h
      injection h with h2
      exact h2 ▸ hm
    · rw [if_neg hm] at h
      dsimp only at h
      exact ih h

/-- The accessorizer branch sets `job?` only to a non-empty mapped role. -/
theorem behaviorAccessorizer_inv (bs : ByteSeq) (s e : Nat) (mi : MinionAcc)
    (h : minionInv mi) : minionInv (behaviorAccessorizer bs s e mi) := by
  obtain ⟨ha, hj⟩ := h
  unfold behaviorAccessorizer
  dsimp only
  split
  · rename_i mapped hfind
    split
    · refine ⟨ha, ?_⟩
      simpa using hat_findSome_ne _ mapped hfind
    · exact ⟨ha, hj⟩
  · exact ⟨ha, hj⟩

/-- The behavior dispatch preserves the walk invariant. -/
theorem processBehavior_inv (bs : ByteSeq) (behName : String) (s e : Nat)
    (mi : MinionAcc) (h : minionInv mi) :
    minionInv (processBehavior bs behName s e mi) := by
  unfold processBehavior
  repeat' split
  all_goals first
    | exact behaviorIdentity_inv bs _ _ mi h
    | exact behaviorResume_inv bs _ _ mi h
    | exact behaviorTraits_inv bs _ _ mi h
    | exact behaviorEffects_inv bs _ _ mi h
    | exact behaviorModifiers_inv bs _ _ mi h
    | exact behaviorAccessorizer_inv bs _ _ mi h
    | exact h

/-- The behavior loop preserves the walk invariant. -/
theorem behaviorsLoop_inv (bs : ByteSeq) (n : Nat) :
    ∀ (p : Nat) (mi : MinionAcc), minionInv mi →
      minionInv (behaviorsLoop bs n p mi).1 := by
  induction n with
  | zero => intro p mi h; exact h
  | succ n ih =>
    intro p mi h
    unfold behaviorsLoop
    repeat' first
      | exact h
      | exact ih _ _ (processBehavior_inv bs _ _ _ mi h)
      | split
      | dsimp only

/-- Every minion collected by the instance loop satisfies the invariant. -/
theorem instancesLoop_inv (bs : ByteSeq) (n : Nat) :
    ∀ (p : Nat) (acc : List MinionAcc), (∀ m ∈ acc, minionInv m) →
      ∀ m ∈ (instancesLoop bs n p acc).1, minionInv m := by
  induction n with
  | zero => intro p acc h; exact h
  | succ n ih =>
    intro p acc h
    unfold instancesLoop
    split
    · exact h
    · dsimp only
      split
      · exact h
      · rename_i behaviorCount heqc
        rcases hb : behaviorsLoop bs (max 0 behaviorCount).toNat
            (p + 12 + 16 + 12 + 1 + 4)
            { xbits := (readU32? bs p).getD 0
              ybits := (readU32? bs (p + 4)).getD 0
              zbits := (readU32? bs (p + 8)).getD 0 } with ⟨mi, p3⟩
        dsimp only
        apply ih
        intro m hm
        rcases List.mem_append.mp hm with h1 | h2
        · exact h m h1
        · have hmi : minionInv mi := by
            have hstep := behaviorsLoop_inv bs (max 0 behaviorCount).toNat
              (p + 12 + 16 + 12 + 1 + 4)
              { xbits := (readU32? bs p).getD 0
                ybits := (readU32? bs (p + 4)).getD 0
                zbits := (readU32? bs (p + 8)).getD 0 }
              ⟨fun _ hp => absurd hp (List.not_mem_nil _), by simp⟩
            rwa [hb] at hstep
          rcases List.mem_singleton.mp h2 with rfl
          exact hmi

/-- Every minion collected by the group loop satisfies the invariant. -/
theorem groupsLoop_inv (bs : ByteSeq) (n : Nat) :
    ∀ (p : Nat) (acc : List MinionAcc), (∀ m ∈ acc, minionInv m) →
      ∀ m ∈ groupsLoop bs n p acc, minionInv m := by
  induction n with
  | zero => intro p acc h; exact h
  | succ n ih =>
    intro p acc h
    unfold groupsLoop
    repeat' first
      | exact h
      | exact ih _ _ h
      | split
      | dsimp only
    apply ih
    intro m hm
    exact instancesLoop_inv bs _ _ acc h m hm

/-- Every raw minion of the walk satisfies the invariant. -/
theorem extractMinionRaw_inv (body : ByteSeq) (m : MinionAcc)
    (hm : m ∈ extractMinionRaw body) : minionInv m := by
  unfold extractMinionRaw at hm
  dsimp only at hm
  split at hm
  · exact absurd hm (List.not_mem_nil _)
  · split at hm
    · exact absurd hm (List.not_mem_nil _)
    · split at hm
      · exact absurd hm (List.not_mem_nil _)
      · split at hm
        · exact absurd hm (List.not_mem_nil _)
        · exact groupsLoop_inv body _ _ []
            (fun _ hp => absurd hp (List.not_mem_nil _)) m hm

/-- C3 (amended): every aptitude level of a decoded duplicant is an
integer in [1, 10]. The per-group maximum table of the spec is not
enforced on the structured `AptitudeBySkillGroup` pass, so the correct
global bound is 10 for every group, not the fixed per-group cap. -/
theorem c3_amended_aptitude_levels (body : ByteSeq) (m : MinionAcc)
    (hm : m ∈ extractMinionDetailsFromBody body) (g : String) (lvl : Int)
    (hp : (g, lvl) ∈ m.aptitudes) : 1 ≤ lvl ∧ lvl ≤ 10 := by
  unfold extractMinionDetailsFromBody at hm
  rcases List.mem_map.mp hm with ⟨m0, hm0, rfl⟩
  exact (extractMinionRaw_inv body m0 hm0).1 (g, lvl) hp

set_option maxRecDepth 100000 in
/-- C3 witness: the single decoded duplicant of the concrete body carries
aptitude ("Mining", 10), and the amended bounds hold there. -/
theorem c3_witness :
    ((extractMinionDetailsFromBody c3Body).headD {} ∈
        extractMinionDetailsFromBody c3Body) ∧
    (("Mining", (10 : Int)) ∈
        ((extractMinionDetailsFromBody c3Body).headD {}).aptitudes) ∧
    (1 ≤ (10 : Int) ∧ (10 : Int) ≤ 10) :=
  ⟨by decide, by decide,
    c3_amended_aptitude_levels c3Body
      ((extractMinionDetailsFromBody c3Body).headD {}) (by decide)
      "Mining" 10 (by decide)⟩

set_option maxRecDepth 100000 in
/-- C7 counterexample: on a body whose single Minion carries a
MinionResume with `currentRole = "NoRole"`, a role IS decoded from the
currentRole payload (job is set to "NoRole"), yet the canonical entry
reports role = "NoRole" — so role = "NoRole" does not imply that no role
could be decoded, refuting the stated equivalence. -/
theorem c7_counterexample :
    (extractMinionRaw c7Body).map (fun m => m.job?) = [some "NoRole"] ∧
    (extractMinionDetailsFromBody c7Body).map
        (fun m => (mapMinionEntry m).role) = ["NoRole"] :=
  ⟨by decide, by decide⟩

/-- C7 (amended): the canonical role is never empty (hence never
null/missing), and role = "NoRole" holds iff the walk either decoded no
role at all (job unset) or decoded the literal string "NoRole" from a
MinionResume currentRole payload or a mapped hat. -/
theorem c7_amended_role (body : ByteSeq) (m : MinionAcc)
    (hm : m ∈ extractMinionRaw body) :
    (mapMinionEntry (finalizeMinion m)).role ≠ "" ∧
    ((mapMinionEntry (finalizeMinion m)).role = "NoRole" ↔
      m.job? = none ∨ m.job? = some "NoRole") := by
  have hinv := (extractMinionRaw_inv body m hm).2
  have hrole : (mapMinionEntry (finalizeMinion m)).role =
      if m.job?.getD "NoRole" = "" then "NoRole" else m.job?.getD "NoRole" := rfl
  cases hj : m.job? with
  | none =>
    rw [hj] at hrole
    simp only [Option.getD_none] at hrole
    rw [if_neg (by decide)] at hrole
    exact ⟨by rw [hrole]; decide, by rw [hrole]; simp⟩
  | some s =>
    rw [hj] at hinv
    have hne : s ≠ "" := fun e => hinv (by rw [e])
    rw [hj] at hrole
    simp only [Option.getD_some] at hrole
    rw [if_neg hne] at hrole
    refine ⟨by rw [hrole]; exact hne, ?_⟩
    rw [hrole]
    simp

set_option maxRecDepth 100000 in
/-- C7 witness: the amended statement evaluated on the concrete body
whose single Minion decoded currentRole = "NoRole". -/
theorem c7_witness :
    ((extractMinionRaw c7Body).headD {} ∈ extractMinionRaw c7Body) ∧
    ((mapMinionEntry (finalizeMinion ((extractMinionRaw c7Body).headD {}))).role ≠ "" ∧
     ((mapMinionEntry (finalizeMinion ((extractMinionRaw c7Body).headD {}))).role = "NoRole" ↔
       ((extractMinionRaw c7Body).headD {}).job? = none ∨
       ((extractMinionRaw c7Body).headD {}).job? = some "NoRole")) :=
  ⟨by decide,
    c7_amended_role c7Body ((extractMinionRaw c7Body).headD {}) (by decide)⟩

/-- The finite float32 at offset `p` if it lies within `[lo, hi]`. -/
def floatAt? (bs : ByteSeq) (lo hi : ℚ) (p : Nat) : Option ℚ :=
  match readF32? bs p with
  | some (some v) => if lo ≤ v ∧ v ≤ hi then some v else none
  | _ => none

/-- Spec-side reading of the scan: the value at the LAST byte offset in
`[start, endp - 4]` at which a finite in-range float32 occurs. -/
def lastFloat32InRange (bs : ByteSeq) (start endp : Nat) (lo hi : ℚ) :
    Option ℚ :=
  ((List.range' start (endp - 3 - start)).filterMap (floatAt? bs lo hi)).getLast?

/-- Pushing one element under `getLast?` and the accumulator. -/
theorem getLast?_or_cons (l : List ℚ) (v : ℚ) (b : Option ℚ) :
    ((v :: l).getLast?).or b = (l.getLast?).or (some v) := by
  cases l with
  | nil => rfl
  | cons x xs =>
    rw [List.getLast?_cons_cons]
    cases h : (x :: xs).getLast? with
    | none => simp at h
    | some w => rfl

/-- The scan loop computes the last in-range float, seeded by `best`. -/
theorem scanBestFloat32Go_eq_last (bs : ByteSeq) (endp : Nat) (lo hi : ℚ) :
    ∀ (fuel p : Nat) (best : Option ℚ), endp - 3 - p ≤ fuel →
      scanBestFloat32Go bs endp lo hi fuel p best =
        (((List.range' p (endp - 3 - p)).filterMap
            (floatAt? bs lo hi)).getLast?).or best := by
  intro fuel
  induction fuel with
  | zero =>
    intro p best hf
    have h0 : endp - 3 - p = 0 := Nat.le_zero.mp hf
    rw [h0]
    rfl
  | succ fuel ih =>
    intro p best hf
    by_cases hp : p + 4 ≤ endp
    · have hc : endp - 3 - p = (endp - 3 - (p + 1)) + 1 := by omega
      have hstep : scanBestFloat32Go bs endp lo hi (fuel + 1) p best =
          scanBestFloat32Go bs endp lo hi fuel (p + 1)
            ((floatAt? bs lo hi p).or best) := by
        conv_lhs => unfold scanBestFloat32Go
        rw [if_pos hp]
        dsimp only
        congr 1
        unfold floatAt?
        cases readF32? bs p with
        | none => rfl
        | some o =>
          cases o with
          | none => rfl
          | some v =>
            dsimp only
            by_cases hv : lo ≤ v ∧ v ≤ hi
            · rw [if_pos hv, if_pos hv]
              rfl
            · rw [if_neg hv, if_neg hv]
              rfl
      rw [hstep, ih (p + 1) ((floatAt? bs lo hi p).or best) (by omega), hc,
        List.range'_succ]
      cases hfp : floatAt? bs lo hi p with
      | none =>
        simp only [List.filterMap_cons, hfp]
        rfl
      | some v =>
        simp only [List.filterMap_cons, hfp]
        rw [getLast?_or_cons]
        rfl
    · have h0 : endp - 3 - p = 0 := by omega
      rw [h0]
      unfold scanBestFloat32Go
      rw [if_neg hp]
      rfl

/-- `_scan_best_float32` returns exactly the last in-range finite float32
of the scanned region. -/
theorem scanBestFloat32_eq_last (bs : ByteSeq) (start endp : Nat)
    (lo hi : ℚ) :
    scanBestFloat32 bs start endp lo hi =
      lastFloat32InRange bs start endp lo hi := by
  unfold scanBestFloat32 lastFloat32InRange
  rw [scanBestFloat32Go_eq_last bs endp lo hi (endp + 1) start none (by omega)]
  cases ((List.range' start (endp - 3 - start)).filterMap
      (floatAt? bs lo hi)).getLast? <;> rfl

/-- C8: in `_parse_minion_modifiers`, an iteration whose label is in the
fixed label table records (via dict assignment) the value at the LAST
byte offset of the payload at which a finite IEEE-754 float32 within the
field range occurs, and leaves the vitals dict unchanged when no such
float exists; `_scan_best_float32` equals that last-in-range read. -/
theorem c8_modifiers_record_last (bs : ByteSeq) (bend fuel q : Nat)
    (vitals : List (String × ℚ)) (name : String) (q2 : Nat) (cLen : Int)
    (key : String) (lo hi : ℚ)
    (hk : readKleiString bs q bend = (some name, q2))
    (hq : q + 8 ≤ bend)
    (hc : readI32? bs q2 = some cLen)
    (hbound : ¬(cLen < 0 ∨ (((q2 + 4 : Nat)) : Int) + cLen > (bend : Int)))
    (hlbl : modifiersLabelMap.lookup name = some (key, lo, hi)) :
    parseMinionModifiersGo bs bend (fuel + 1) q vitals =
      parseMinionModifiersGo bs bend fuel (q2 + 4 + cLen.toNat)
        (match lastFloat32InRange bs (q2 + 4) (q2 + 4 + cLen.toNat) lo hi with
         | some v => dictSet vitals key v
         | none => vitals) := by
  have h1 : ¬(q2 + 4 > bend) := by
    push_neg at hbound ⊢
    omega
  conv_lhs => unfold parseMinionModifiersGo
  rw [if_pos hq, hk]
  dsimp only
  rw [if_neg h1, hc]
  dsimp only
  rw [if_neg hbound]
  rw [hlbl]
  dsimp only
  rw [scanBestFloat32_eq_last]

/-- Payload for the C8 witness: float32 0.0 then float32 75.5 (bytes
0x42970000, i.e. 151/2), both finite and within [0, 1000]. -/
def c8pay : ByteSeq := [0, 0, 0, 0, 0x00, 0x00, 0x97, 0x42]

/-- One encoded `Health` modifier entry. -/
def c8bs : ByteSeq := kleiStr "Health" ++ le32n 8 ++ c8pay

set_option maxRecDepth 100000 in
/-- C8 witness: on the concrete Health entry the iteration records the
last in-range float32 of the payload. -/
theorem c8_witness :
    readKleiString c8bs 0 22 = (some "Health", 10) ∧
    0 + 8 ≤ 22 ∧
    readI32? c8bs 10 = some 8 ∧
    ¬((8 : Int) < 0 ∨ (((10 + 4 : Nat)) : Int) + 8 > ((22 : Nat) : Int)) ∧
    modifiersLabelMap.lookup "Health" = some ("health", (0 : ℚ), (1000 : ℚ)) ∧
    parseMinionModifiersGo c8bs 22 (0 + 1) 0 [] =
      parseMinionModifiersGo c8bs 22 0 (10 + 4 + (8 : Int).toNat)
        (match lastFloat32InRange c8bs (10 + 4) (10 + 4 + (8 : Int).toNat) 0 1000 with
         | some v => dictSet [] "health" v
         | none => ([] : List (String × ℚ))) :=
  ⟨by decide, by decide, by decide, by decide, by decide,
    c8_modifiers_record_last c8bs 22 0 0 [] "Health" 10 8 "health" 0 1000
      (by decide) (by decide) (by decide) (by decide) (by decide)⟩
